import Mathlib

/-!
# OpenAPI generation orchestrator

A shallow embedding of `cmd/operator-sdk/internal/genutil/openapi.go`
(package `genutil` of operator-sdk) and theorems about its two entry points
`OpenAPIGen` and `OpenAPIGenWithIgnoreFlag`.

Conventions of the embedding.

* Go strings are Lean strings; byte offsets are modelled as character
  offsets (the separators involved are ASCII, so slicing at an offset found
  by `strings.Index` cuts at the same place in both readings).
* Every collaborator the file calls but does not define (project discovery,
  CRD loading, the openapi-gen generator, the scaffolding engine) is a field
  of `Env`: a value or a function from the request to its result.
* A run returns its Go result together with the list of collaborator
  invocations it made, in order (`Event`).  Logging and `flag.Set` have no
  bearing on either and are left out.
* The target is a Unix system: `filepath.Separator` is `/`.
-/

namespace Genutil

/-! ## Go values -/

/-- Go `error` values that reach the caller of this file. -/
inductive GoError where
  /-- An error value produced by a collaborator. -/
  | external (msg : String)
  /-- The value of `fmt.Errorf` with the formatted message. -/
  | errorf (msg : String)
  /-- The value of `errors.Wrap(cause, message)`. -/
  | wrap (cause : GoError) (message : String)
  deriving DecidableEq, Repr

/-- The text of `err.Error()`. -/
def GoError.Error : GoError → String
  | .external msg => msg
  | .errorf msg => msg
  | .wrap cause message => message ++ ": " ++ cause.Error

/-- How a call ends: a nil error with a value, a non-nil error, the process
exiting inside a `Must...` helper (`log.Fatal`), or a run-time panic. -/
inductive Outcome (α : Type) where
  | ok (a : α)
  | error (err : GoError)
  | fatal
  | panic
  deriving DecidableEq, Repr

/-! ## The Go library functions used on paths (Unix) -/

/-- The constant `filepath.Separator`. -/
def Separator : Char := '/'

/-- The function `filepath.FromSlash`. -/
def FromSlash (path : String) : String :=
  if Separator = '/' then path
  else String.mk (path.data.map (fun c => if c = '/' then Separator else c))

/-- Whether `s` begins with `p`. -/
def startsWith : List Char → List Char → Bool
  | _, [] => true
  | [], _ :: _ => false
  | c :: s, d :: p => c == d && startsWith s p

/-- First offset at or after `i` (the offset of `s` in the whole string) at
which `sub` occurs, `-1` when there is none. -/
def indexFrom (sub : List Char) : List Char → Nat → Int
  | [], i => if sub = [] then (i : Int) else -1
  | c :: s, i => if startsWith (c :: s) sub then (i : Int) else indexFrom sub s (i + 1)

/-- The function `strings.Index(s, substr)`. -/
def stringsIndex (s substr : String) : Int :=
  indexFrom substr.data s.data 0

/-- The slice expression `s[i:]`: `none` stands for the run-time panic
"slice bounds out of range". -/
def sliceFrom (s : String) (i : Int) : Option String :=
  if 0 ≤ i ∧ i ≤ (s.length : Int) then some (String.mk (s.data.drop i.toNat)) else none

/-- The elements of a path: the pieces between separators. -/
def splitSep : List Char → List (List Char)
  | [] => [[]]
  | c :: cs =>
    if c = Separator then [] :: splitSep cs
    else
      match splitSep cs with
      | [] => [[c]]
      | e :: es => (c :: e) :: es

/-- The function `strings.Join(elems, "/")` on character lists. -/
def joinSep : List (List Char) → List Char
  | [] => []
  | e :: es =>
    match es with
    | [] => e
    | _ :: _ => e ++ Separator :: joinSep es

/-- One element read by `Clean`, with the kept elements `out` (last kept
first): empty and `.` elements are dropped, `..` removes the element before
it, or is kept when the path is not rooted and nothing is left to remove. -/
def cleanStep (rooted : Bool) (out : List (List Char)) (e : List Char) : List (List Char) :=
  if e = [] ∨ e = ['.'] then out
  else if e = ['.', '.'] then
    match out with
    | [] => if rooted then [] else [e]
    | top :: below =>
      if top = ['.', '.'] then (if rooted then out else e :: out) else below
  else e :: out

/-- The function `filepath.Clean` on character lists, by its documented
rules. -/
def cleanChars (path : List Char) : List Char :=
  match path with
  | [] => ['.']
  | c :: _ =>
    let rooted := decide (c = Separator)
    let body := joinSep ((splitSep path).foldl (cleanStep rooted) []).reverse
    if rooted then Separator :: body
    else if body = [] then ['.'] else body

/-- The function `filepath.Clean`. -/
def Clean (path : String) : String :=
  String.mk (cleanChars path.data)

/-- The function `filepath.Join` (and `path.Join`, the same on Unix): empty
leading elements are skipped, the rest is joined by the separator and
cleaned. -/
def Join : List String → String
  | [] => ""
  | e :: es =>
    if e = "" then Join es
    else Clean (String.mk (joinSep ((e :: es).map String.data)))

/-- The path `s` without its trailing separators. -/
def stripTrailingSep (s : List Char) : List Char :=
  (s.reverse.dropWhile (fun c => c == Separator)).reverse

/-- The function `filepath.Base`. -/
def Base (path : String) : String :=
  if path = "" then "."
  else
    let stripped := stripTrailingSep path.data
    let last := (stripped.reverse.takeWhile (fun c => !(c == Separator))).reverse
    if last = [] then String.singleton Separator else String.mk last

/-! ## Data model -/

/-- One entry of `CustomResourceDefinitionSpec.Versions`. -/
structure CustomResourceDefinitionVersion where
  Name : String
  deriving DecidableEq, Repr

/-- The part of `CustomResourceDefinitionNames` that is read. -/
structure CustomResourceDefinitionNames where
  Kind : String
  deriving DecidableEq, Repr

/-- The part of `v1beta1.CustomResourceDefinitionSpec` that is read. -/
structure CustomResourceDefinitionSpec where
  Group : String
  Version : String
  Names : CustomResourceDefinitionNames
  Versions : List CustomResourceDefinitionVersion
  deriving DecidableEq, Repr

/-- The type `v1beta1.CustomResourceDefinition`. -/
structure CustomResourceDefinition where
  Spec : CustomResourceDefinitionSpec
  deriving DecidableEq, Repr

/-- The type `input.Config`, with the fields `preScaffoldSetup` sets. -/
structure Config where
  Repo : String
  AbsProjectPath : String
  ProjectName : String
  deriving DecidableEq, Repr

/-- The resource identity built by `scaffold.NewResource`: every other
field of `scaffold.Resource` is derived from these two. -/
structure Resource where
  APIVersion : String
  Kind : String
  deriving DecidableEq, Repr

/-- The scaffold request `scaffold.CRD`, with the fields `doScffolding`
sets. -/
structure ScaffoldCRD where
  Resource : Resource
  IsOperatorGo : Bool
  deriving DecidableEq, Repr

/-- The generator arguments `openAPIGen` sets (`ReportFilename` belongs to
the custom arguments returned beside them by `NewDefaults`). -/
structure GeneratorArgs where
  OutputBase : String
  GeneratedByCommentTemplate : String
  InputDirs : List String
  OutputFileBaseName : String
  OutputPackagePath : String
  GoHeaderFilePath : String
  ReportFilename : String
  deriving DecidableEq, Repr

/-- A collaborator invocation with an effect on the project tree. -/
inductive Event where
  /-- The call `args.Execute(...)` of the openapi-gen generator. -/
  | generate (args : GeneratorArgs)
  /-- The call `s.Execute(cfg, &scaffold.CRD ...)` of the scaffolding
  engine. -/
  | scaffold (cfg : Config) (crd : ScaffoldCRD)
  deriving DecidableEq, Repr

/-- The collaborators of the file: constants of package `scaffold`, and the
results of the calls into `projutil`, `k8sutil`, `os`, the generator and the
scaffolding engine. -/
structure Env where
  /-- The constant `scaffold.ApisDir`. -/
  ApisDir : String
  /-- The constant `scaffold.CRDsDir`. -/
  CRDsDir : String
  /-- Whether `projutil.MustInProjectRoot` returns (it exits otherwise). -/
  inProjectRoot : Bool
  /-- The value of `projutil.MustGetwd`, `none` when it exits. -/
  mustGetwd : Option String
  /-- The value of `projutil.GetGoPkg`. -/
  goPkg : String
  /-- The value of `projutil.IsOperatorGo`. -/
  isOperatorGo : Bool
  /-- The function `k8sutil.ParseGroupSubpackages`; the map is listed in the
  order in which it is ranged over. -/
  parseGroupSubpackages : String → Except GoError (List (String × List String))
  /-- The function `k8sutil.GetCRDs`. -/
  getCRDs : String → Except GoError (List CustomResourceDefinition)
  /-- The header file path `generateWithHeaderFile` obtains. -/
  headerFile : Except GoError String
  /-- The value of `os.Getwd` inside `openAPIGen`. -/
  osGetwd : Except GoError String
  /-- The first value of `generatorargs.NewDefaults`. -/
  defaults : GeneratorArgs
  /-- The function `generatorargs.Validate`: `none` is a nil error. -/
  validate : GeneratorArgs → Option GoError
  /-- The generator run `args.Execute`: `none` is a nil error. -/
  execute : GeneratorArgs → Option GoError
  /-- The validation inside `scaffold.NewResource`: `none` is a nil
  error. -/
  resourceError : String → String → Option GoError
  /-- The scaffolding engine `s.Execute`: `none` is a nil error. -/
  scaffoldExecute : Config → ScaffoldCRD → Option GoError

/-- A call's outcome and the events it emitted. -/
abbrev Run (α : Type) := Outcome α × List Event

/-- The scaffold requests among the events, in order. -/
def scaffoldCalls : List Event → List (Config × ScaffoldCRD)
  | [] => []
  | .scaffold cfg crd :: t => (cfg, crd) :: scaffoldCalls t
  | .generate _ :: t => scaffoldCalls t

/-- The generator runs among the events, in order. -/
def generatorRuns : List Event → List GeneratorArgs
  | [] => []
  | .generate args :: t => args :: generatorRuns t
  | .scaffold _ _ :: t => generatorRuns t

/-! ## The functions of `openapi.go` -/

/-- Modelled from the spec: `k8sutil.CreateFQAPIs` is defined outside this
file; it yields one fully-qualified path per (group, version) pair present
in the map, joining the package root, the group and the version. -/
def CreateFQAPIs (pkg : String) (gvs : List (String × List String)) : List String :=
  (gvs.map (fun gv => gv.2.map (fun v => Join [pkg, gv.1, v]))).flatten

/-- Modelled from the spec: `scaffold.NewResource` is defined outside this
file; it forms the resource identity (group/version, kind) or fails with a
construction error. -/
def NewResource (env : Env) (apiVersion kind : String) : Except GoError Resource :=
  match env.resourceError apiVersion kind with
  | some err => .error err
  | none => .ok { APIVersion := apiVersion, Kind := kind }

/-- Modelled from the spec: `generateWithHeaderFile` is defined in another
file of the package.  As its call in `preScaffoldSetup` uses it, it obtains
the path of the header file (or fails to) and runs `f` on that path; the
generation phase is fatal to the run, so the error of `f` is the error it
returns. -/
def generateWithHeaderFile (env : Env) (f : String → Run Unit) : Run Unit :=
  match env.headerFile with
  | .error err => (.error err, [])
  | .ok hf => f hf

/-- Lines 148-150 of `openAPIGen`: the path handed to the generator for the
fully-qualified path `api`; `none` is the panic of the slice expression. -/
def relativeAPIPath (apisDir api : String) : Option String :=
  let api := FromSlash api
  match sliceFrom api (stringsIndex api apisDir) with
  | none => none
  | some suffix => some ("." ++ String.singleton Separator ++ suffix)

/-- Lines 151-161 of `openAPIGen`: the arguments of one generator run. -/
def generatorArgs (env : Env) (hf wd apiPath : String) : GeneratorArgs :=
  { env.defaults with
    OutputBase := ""
    GeneratedByCommentTemplate := ""
    InputDirs := [apiPath]
    OutputFileBaseName := "zz_generated.openapi"
    OutputPackagePath := Join [wd, apiPath]
    GoHeaderFilePath := hf
    ReportFilename := "-" }

/-- The loop of `openAPIGen` over `fqApis`. -/
def openAPIGenLoop (env : Env) (hf wd : String) : List String → Run Unit
  | [] => (.ok (), [])
  | api :: rest =>
    match relativeAPIPath env.ApisDir api with
    | none => (.panic, [])
    | some apiPath =>
      let args := generatorArgs env hf wd apiPath
      match env.validate args with
      | some err => (.error (.wrap err "openapi-gen argument validation error"), [])
      | none =>
        match env.execute args with
        | some err => (.error (.wrap err "openapi-gen generator error"), [.generate args])
        | none =>
          let r := openAPIGenLoop env hf wd rest
          (r.1, .generate args :: r.2)

/-- The function `openAPIGen`. -/
def openAPIGen (env : Env) (hf : String) (fqApis : List String) : Run Unit :=
  match env.osGetwd with
  | .error err => (.error err, [])
  | .ok wd => openAPIGenLoop env hf wd fqApis

/-- The function `preScaffoldSetup`. -/
def preScaffoldSetup (env : Env) : Run (Config × List CustomResourceDefinition) :=
  if env.inProjectRoot = false then (.fatal, [])
  else
    match env.mustGetwd with
    | none => (.fatal, [])
    | some absProjectPath =>
      let repoPkg := env.goPkg
      match env.parseGroupSubpackages env.ApisDir with
      | .error err =>
        (.error (.errorf ("failed to parse group versions: (" ++ err.Error ++ ")")), [])
      | .ok gvMap =>
        let apisPkg := Join [repoPkg, env.ApisDir]
        let fqApis := CreateFQAPIs apisPkg gvMap
        match generateWithHeaderFile env (fun a => openAPIGen env a fqApis) with
        | (.error err, t) => (.error err, t)
        | (.fatal, t) => (.fatal, t)
        | (.panic, t) => (.panic, t)
        | (.ok (), t) =>
          let cfg : Config :=
            { Repo := repoPkg
              AbsProjectPath := absProjectPath
              ProjectName := Base absProjectPath }
          match env.getCRDs env.CRDsDir with
          | .error err => (.error err, t)
          | .ok crds => (.ok (cfg, crds), t)

/-- The function `doScffolding`. -/
def doScffolding (env : Env) (g v k : String) (cfg : Config) : Run Unit :=
  match NewResource env (g ++ "/" ++ v) k with
  | .error err => (.error err, [])
  | .ok r =>
    let crd : ScaffoldCRD := { Resource := r, IsOperatorGo := env.isOperatorGo }
    match env.scaffoldExecute cfg crd with
    | some err => (.error err, [.scaffold cfg crd])
    | none => (.ok (), [.scaffold cfg crd])

/-- Lines 44-51 (and 70-77, the same text): the version of a CRD, or the
error returned when it has none. -/
def resolveVersion (crd : CustomResourceDefinition) : Except GoError String :=
  let g := crd.Spec.Group
  let v := crd.Spec.Version
  let k := crd.Spec.Names.Kind
  if v = "" then
    match crd.Spec.Versions with
    | ver :: _ => .ok ver.Name
    | [] => .error (.errorf ("crd of group " ++ g ++ " kind " ++ k ++ " has no version"))
  else .ok v

/-- The loop of `OpenAPIGen` over the CRDs. -/
def OpenAPIGenLoop (env : Env) (cfg : Config) : List CustomResourceDefinition → Run Unit
  | [] => (.ok (), [])
  | crd :: crds =>
    match resolveVersion crd with
    | .error err => (.error err, [])
    | .ok v =>
      match doScffolding env crd.Spec.Group v crd.Spec.Names.Kind cfg with
      | (.ok (), t) =>
        let r := OpenAPIGenLoop env cfg crds
        (r.1, t ++ r.2)
      | (o, t) => (o, t)

/-- The function `OpenAPIGen`. -/
def OpenAPIGen (env : Env) : Run Unit :=
  match preScaffoldSetup env with
  | (.error err, t) => (.error err, t)
  | (.fatal, t) => (.fatal, t)
  | (.panic, t) => (.panic, t)
  | (.ok (cfg, crds), t) =>
    let r := OpenAPIGenLoop env cfg crds
    (r.1, t ++ r.2)

/-- The inner loop of `OpenAPIGenWithIgnoreFlag` over `ignoreGroups`. -/
def ignoreLoop (env : Env) (cfg : Config) (g v k : String) : List String → Run Unit
  | [] => (.ok (), [])
  | group :: groups =>
    if g ≠ group then
      match doScffolding env g v k cfg with
      | (.ok (), t) =>
        let r := ignoreLoop env cfg g v k groups
        (r.1, t ++ r.2)
      | (o, t) => (o, t)
    else ignoreLoop env cfg g v k groups

/-- The outer loop of `OpenAPIGenWithIgnoreFlag` over the CRDs. -/
def OpenAPIGenWithIgnoreFlagLoop (env : Env) (cfg : Config) (ignoreGroups : List String) :
    List CustomResourceDefinition → Run Unit
  | [] => (.ok (), [])
  | crd :: crds =>
    match resolveVersion crd with
    | .error err => (.error err, [])
    | .ok v =>
      match ignoreLoop env cfg crd.Spec.Group v crd.Spec.Names.Kind ignoreGroups with
      | (.ok (), t) =>
        let r := OpenAPIGenWithIgnoreFlagLoop env cfg ignoreGroups crds
        (r.1, t ++ r.2)
      | (o, t) => (o, t)

/-- The function `OpenAPIGenWithIgnoreFlag`. -/
def OpenAPIGenWithIgnoreFlag (env : Env) (ignoreGroups : List String) : Run Unit :=
  match preScaffoldSetup env with
  | (.error err, t) => (.error err, t)
  | (.fatal, t) => (.fatal, t)
  | (.panic, t) => (.panic, t)
  | (.ok (cfg, crds), t) =>
    let r := OpenAPIGenWithIgnoreFlagLoop env cfg ignoreGroups crds
    (r.1, t ++ r.2)

/-! ## Vocabulary of the statements -/

/-- The scaffolder succeeds on every request: neither the construction of
the resource nor the scaffolding engine ever returns an error. -/
def ScaffolderSucceeds (env : Env) : Prop :=
  (∀ apiVersion kind, env.resourceError apiVersion kind = none) ∧
  (∀ cfg crd, env.scaffoldExecute cfg crd = none)

/-- The version of a CRD resolves: its primary version or its version list
is non-empty. -/
def Resolves (crd : CustomResourceDefinition) : Prop :=
  crd.Spec.Version ≠ "" ∨ crd.Spec.Versions ≠ []

instance (crd : CustomResourceDefinition) : Decidable (Resolves crd) :=
  inferInstanceAs (Decidable (crd.Spec.Version ≠ "" ∨ crd.Spec.Versions ≠ []))

/-- The version of a CRD in the words of the specification: the primary
version when it is non-empty, otherwise the name of the first entry of the
version list (the empty string when there is none). -/
def specVersion (crd : CustomResourceDefinition) : String :=
  if crd.Spec.Version ≠ "" then crd.Spec.Version
  else
    match crd.Spec.Versions.head? with
    | some ver => ver.Name
    | none => ""

/-- The scaffold request expected for a CRD: the resource identity
(group/version, kind) under the configuration `cfg`. -/
def scaffoldRequest (env : Env) (cfg : Config) (crd : CustomResourceDefinition) :
    Config × ScaffoldCRD :=
  (cfg,
    { Resource :=
        { APIVersion := crd.Spec.Group ++ "/" ++ specVersion crd
          Kind := crd.Spec.Names.Kind }
      IsOperatorGo := env.isOperatorGo })

/-- Number of entries of the ignore list that differ from the group of the
CRD. -/
def timesScaffolded (ignoreGroups : List String) (crd : CustomResourceDefinition) : Nat :=
  ignoreGroups.countP (fun group => decide (crd.Spec.Group ≠ group))

/-- The error returned for a CRD without a version. -/
def noVersionError (crd : CustomResourceDefinition) : GoError :=
  .errorf ("crd of group " ++ crd.Spec.Group ++ " kind " ++ crd.Spec.Names.Kind ++
    " has no version")

/-- An ordinary path element: non-empty, without a separator, and neither
`.` nor `..`. -/
def IsElem (e : List Char) : Prop :=
  e ≠ [] ∧ Separator ∉ e ∧ e ≠ ['.'] ∧ e ≠ ['.', '.']

instance (e : List Char) : Decidable (IsElem e) :=
  inferInstanceAs (Decidable (e ≠ [] ∧ Separator ∉ e ∧ e ≠ ['.'] ∧ e ≠ ['.', '.']))

/-- A relative path made of one or more ordinary elements. -/
def IsCleanRel (p : String) : Prop :=
  ∀ e ∈ splitSep p.data, IsElem e

instance (p : String) : Decidable (IsCleanRel p) :=
  inferInstanceAs (Decidable (∀ e ∈ splitSep p.data, IsElem e))

/-! ## A sample project -/

/-- A CRD manifest with the given group, primary version, kind and version
list. -/
def sampleCRD (g v k : String) (versions : List String) : CustomResourceDefinition :=
  { Spec :=
      { Group := g
        Version := v
        Names := { Kind := k }
        Versions := versions.map (fun n => { Name := n }) } }

/-- Generator defaults of the sample project. -/
def sampleDefaults : GeneratorArgs :=
  { OutputBase := "/go/src"
    GeneratedByCommentTemplate := "// Code generated by GENERATOR_NAME. DO NOT EDIT."
    InputDirs := []
    OutputFileBaseName := "generated"
    OutputPackagePath := ""
    GoHeaderFilePath := ""
    ReportFilename := "" }

/-- A project at `/home/dev/app-operator` whose API tree holds the group
versions `gvs` and whose manifest directory holds `crds`; every collaborator
succeeds. -/
def sampleEnv (gvs : List (String × List String)) (crds : List CustomResourceDefinition) :
    Env :=
  { ApisDir := "pkg/apis"
    CRDsDir := "deploy/crds"
    inProjectRoot := true
    mustGetwd := some "/home/dev/app-operator"
    goPkg := "github.com/example/app-operator"
    isOperatorGo := true
    parseGroupSubpackages := fun _ => .ok gvs
    getCRDs := fun _ => .ok crds
    headerFile := .ok "hack/boilerplate.go.txt"
    osGetwd := .ok "/home/dev/app-operator"
    defaults := sampleDefaults
    validate := fun _ => none
    execute := fun _ => none
    resourceError := fun _ _ => none
    scaffoldExecute := fun _ _ => none }

/-- The configuration `preScaffoldSetup` builds in the sample project. -/
def sampleConfig : Config :=
  { Repo := "github.com/example/app-operator"
    AbsProjectPath := "/home/dev/app-operator"
    ProjectName := "app-operator" }

/-- The generator run of the sample project for the package of group `g`,
version `v`. -/
def sampleRun (g v : String) : GeneratorArgs :=
  { OutputBase := ""
    GeneratedByCommentTemplate := ""
    InputDirs := ["./pkg/apis/" ++ g ++ "/" ++ v]
    OutputFileBaseName := "zz_generated.openapi"
    OutputPackagePath := "/home/dev/app-operator/pkg/apis/" ++ g ++ "/" ++ v
    GoHeaderFilePath := "hack/boilerplate.go.txt"
    ReportFilename := "-" }

/-- Three kinds of one group and version; the last one names its version in
the version list only. -/
def threeKinds : List CustomResourceDefinition :=
  [sampleCRD "app" "v1" "Memcached" [], sampleCRD "app" "v1" "Redis" ["v1beta1"],
    sampleCRD "app" "" "Etcd" ["v1", "v2"]]

/-- A list with a CRD that has no version in second place. -/
def brokenKinds : List CustomResourceDefinition :=
  [sampleCRD "app" "v1" "Memcached" [], sampleCRD "cache" "" "Redis" [],
    sampleCRD "app" "v1" "Etcd" []]

/-- The sample project with three versions of one group and a generator
whose argument validation rejects the package of the second. -/
def rejectingEnv : Env :=
  { sampleEnv [("app", ["v1", "v2", "v3"])] threeKinds with
    validate := fun args =>
      if args.InputDirs = ["./pkg/apis/app/v2"] then some (.external "invalid input")
      else none }

/-- The sample project with three versions of one group and a generator
that fails while running on the package of the second. -/
def failingEnv : Env :=
  { sampleEnv [("app", ["v1", "v2", "v3"])] threeKinds with
    execute := fun args =>
      if args.InputDirs = ["./pkg/apis/app/v2"] then some (.external "malformed types")
      else none }

/-- The sample project with a manifest directory that cannot be read. -/
def unreadableEnv : Env :=
  { sampleEnv [("app", ["v1"])] [] with
    getCRDs := fun _ => .error (.external "open deploy/crds: no such file or directory") }

/-- The sample project under a module root that itself holds the API
directory `pkg/apis`. -/
def apisRootEnv : Env :=
  { sampleEnv [("app", ["v1"])] threeKinds with
    goPkg := "github.com/example/pkg/apis-operator" }

/-! ## Auxiliary lemmas -/

theorem scaffoldCalls_append (a b : List Event) :
    scaffoldCalls (a ++ b) = scaffoldCalls a ++ scaffoldCalls b := by
  induction a with
  | nil => rfl
  | cons e t ih => cases e <;> simp [scaffoldCalls, ih]

theorem generatorRuns_append (a b : List Event) :
    generatorRuns (a ++ b) = generatorRuns a ++ generatorRuns b := by
  induction a with
  | nil => rfl
  | cons e t ih => cases e <;> simp [generatorRuns, ih]

theorem scaffoldCalls_openAPIGenLoop (env : Env) (hf wd : String) (fqApis : List String) :
    scaffoldCalls (openAPIGenLoop env hf wd fqApis).2 = [] := by
  induction fqApis with
  | nil => rfl
  | cons api rest ih =>
    simp only [openAPIGenLoop]
    split
    · rfl
    · split
      · rfl
      · split
        · rfl
        · simpa [scaffoldCalls] using ih

theorem scaffoldCalls_openAPIGen (env : Env) (hf : String) (fqApis : List String) :
    scaffoldCalls (openAPIGen env hf fqApis).2 = [] := by
  unfold openAPIGen
  split
  · rfl
  · exact scaffoldCalls_openAPIGenLoop env hf _ fqApis

theorem scaffoldCalls_generateWithHeaderFile (env : Env) (fqApis : List String) :
    scaffoldCalls (generateWithHeaderFile env (fun a => openAPIGen env a fqApis)).2 = [] := by
  unfold generateWithHeaderFile
  split
  · rfl
  · exact scaffoldCalls_openAPIGen env _ fqApis

theorem scaffoldCalls_preScaffoldSetup (env : Env) :
    scaffoldCalls (preScaffoldSetup env).2 = [] := by
  unfold preScaffoldSetup
  cases env.inProjectRoot
  · rfl
  · cases env.mustGetwd with
    | none => rfl
    | some p =>
      cases env.parseGroupSubpackages env.ApisDir with
      | error err => rfl
      | ok gv =>
        have h := scaffoldCalls_generateWithHeaderFile env
          (CreateFQAPIs (Join [env.goPkg, env.ApisDir]) gv)
        rcases hg : generateWithHeaderFile env
          (fun a => openAPIGen env a (CreateFQAPIs (Join [env.goPkg, env.ApisDir]) gv)) with ⟨o, t⟩
        rw [hg] at h
        cases o with
        | ok u => cases env.getCRDs env.CRDsDir <;> simpa [hg] using h
        | error e => simpa [hg] using h
        | fatal => simpa [hg] using h
        | panic => simpa [hg] using h

theorem doScffolding_ok (env : Env) (hs : ScaffolderSucceeds env) (g v k : String)
    (cfg : Config) :
    doScffolding env g v k cfg =
      (.ok (), [.scaffold cfg
        { Resource := { APIVersion := g ++ "/" ++ v, Kind := k }
          IsOperatorGo := env.isOperatorGo }]) := by
  simp [doScffolding, NewResource, hs.1, hs.2]

theorem resolveVersion_of_resolves (crd : CustomResourceDefinition) (h : Resolves crd) :
    resolveVersion crd = .ok (specVersion crd) := by
  unfold resolveVersion specVersion
  by_cases hv : crd.Spec.Version = ""
  · rcases h with h | h
    · exact absurd hv h
    · cases hl : crd.Spec.Versions with
      | nil => exact absurd hl h
      | cons ver rest => simp [hv]
  · simp [hv]

theorem resolveVersion_of_not_resolves (crd : CustomResourceDefinition)
    (hv : crd.Spec.Version = "") (hl : crd.Spec.Versions = []) :
    resolveVersion crd = .error (noVersionError crd) := by
  simp [resolveVersion, noVersionError, hv, hl]

theorem not_resolves_iff (crd : CustomResourceDefinition) :
    ¬ Resolves crd ↔ crd.Spec.Version = "" ∧ crd.Spec.Versions = [] := by
  unfold Resolves
  constructor
  · intro h
    exact ⟨by_contra fun h1 => h (Or.inl h1), by_contra fun h2 => h (Or.inr h2)⟩
  · rintro ⟨h1, h2⟩ (h | h)
    · exact h h1
    · exact h h2

/-- Either every CRD resolves, or the list splits at the first one that does
not. -/
theorem resolves_all_or_first_bad (crds : List CustomResourceDefinition) :
    (∀ crd ∈ crds, Resolves crd) ∨
    ∃ pre bad post, crds = pre ++ bad :: post ∧ (∀ crd ∈ pre, Resolves crd) ∧
      ¬ Resolves bad := by
  induction crds with
  | nil => exact Or.inl (by simp)
  | cons c cs ih =>
    by_cases hc : Resolves c
    · rcases ih with h | ⟨pre, bad, post, hsplit, hpre, hbad⟩
      · left
        intro crd hmem
        rcases List.mem_cons.mp hmem with rfl | h'
        · exact hc
        · exact h crd h'
      · right
        refine ⟨c :: pre, bad, post, by simp [hsplit], ?_, hbad⟩
        intro crd hmem
        rcases List.mem_cons.mp hmem with rfl | h'
        · exact hc
        · exact hpre crd h'
    · exact Or.inr ⟨[], c, cs, rfl, by simp, hc⟩

theorem scaffoldCalls_map_request (env : Env) (cfg : Config)
    (crds : List CustomResourceDefinition) :
    scaffoldCalls (crds.map (fun crd =>
      Event.scaffold (scaffoldRequest env cfg crd).1 (scaffoldRequest env cfg crd).2)) =
      crds.map (scaffoldRequest env cfg) := by
  induction crds with
  | nil => rfl
  | cons c cs ih => simp [scaffoldCalls, ih]

theorem OpenAPIGenLoop_append (env : Env) (hs : ScaffolderSucceeds env) (cfg : Config)
    (pre rest : List CustomResourceDefinition) (hpre : ∀ crd ∈ pre, Resolves crd) :
    OpenAPIGenLoop env cfg (pre ++ rest) =
      ((OpenAPIGenLoop env cfg rest).1,
        pre.map (fun crd =>
          Event.scaffold (scaffoldRequest env cfg crd).1 (scaffoldRequest env cfg crd).2) ++
        (OpenAPIGenLoop env cfg rest).2) := by
  induction pre with
  | nil => rfl
  | cons c cs ih =>
    have hc : Resolves c := hpre c (List.mem_cons_self _ _)
    have hcs : ∀ crd ∈ cs, Resolves crd := fun crd h => hpre crd (List.mem_cons_of_mem _ h)
    have step : OpenAPIGenLoop env cfg (c :: (cs ++ rest)) =
        ((OpenAPIGenLoop env cfg (cs ++ rest)).1,
          Event.scaffold (scaffoldRequest env cfg c).1 (scaffoldRequest env cfg c).2 ::
            (OpenAPIGenLoop env cfg (cs ++ rest)).2) := by
      simp [OpenAPIGenLoop, resolveVersion_of_resolves c hc, doScffolding_ok env hs,
        scaffoldRequest]
    rw [List.cons_append, step, ih hcs]
    simp

theorem OpenAPIGenLoop_bad (env : Env) (cfg : Config) (bad : CustomResourceDefinition)
    (post : List CustomResourceDefinition) (hbad : ¬ Resolves bad) :
    OpenAPIGenLoop env cfg (bad :: post) = (.error (noVersionError bad), []) := by
  have h := (not_resolves_iff bad).mp hbad
  simp only [OpenAPIGenLoop, resolveVersion_of_not_resolves bad h.1 h.2]

theorem ignoreLoop_ok (env : Env) (hs : ScaffolderSucceeds env) (cfg : Config)
    (g v k : String) (ignoreGroups : List String) :
    ignoreLoop env cfg g v k ignoreGroups =
      (.ok (), List.replicate (ignoreGroups.countP (fun group => decide (g ≠ group)))
        (.scaffold cfg
          { Resource := { APIVersion := g ++ "/" ++ v, Kind := k }
            IsOperatorGo := env.isOperatorGo })) := by
  induction ignoreGroups with
  | nil => rfl
  | cons group groups ih =>
    by_cases hg : g = group
    · subst hg
      simp [ignoreLoop, ih]
    · simp [ignoreLoop, hg, ih, doScffolding_ok env hs, List.countP_cons, List.replicate_succ]

theorem WithIgnoreFlagLoop_append (env : Env) (hs : ScaffolderSucceeds env) (cfg : Config)
    (ignoreGroups : List String)
    (pre rest : List CustomResourceDefinition) (hpre : ∀ crd ∈ pre, Resolves crd) :
    OpenAPIGenWithIgnoreFlagLoop env cfg ignoreGroups (pre ++ rest) =
      ((OpenAPIGenWithIgnoreFlagLoop env cfg ignoreGroups rest).1,
        (pre.map (fun crd => List.replicate (timesScaffolded ignoreGroups crd)
          (Event.scaffold (scaffoldRequest env cfg crd).1
            (scaffoldRequest env cfg crd).2))).flatten ++
        (OpenAPIGenWithIgnoreFlagLoop env cfg ignoreGroups rest).2) := by
  induction pre with
  | nil => rfl
  | cons c cs ih =>
    have hc : Resolves c := hpre c (List.mem_cons_self _ _)
    have hcs : ∀ crd ∈ cs, Resolves crd := fun crd h => hpre crd (List.mem_cons_of_mem _ h)
    have step : OpenAPIGenWithIgnoreFlagLoop env cfg ignoreGroups (c :: (cs ++ rest)) =
        ((OpenAPIGenWithIgnoreFlagLoop env cfg ignoreGroups (cs ++ rest)).1,
          List.replicate (timesScaffolded ignoreGroups c)
            (Event.scaffold (scaffoldRequest env cfg c).1 (scaffoldRequest env cfg c).2) ++
            (OpenAPIGenWithIgnoreFlagLoop env cfg ignoreGroups (cs ++ rest)).2) := by
      simp [OpenAPIGenWithIgnoreFlagLoop, resolveVersion_of_resolves c hc,
        ignoreLoop_ok env hs, scaffoldRequest, timesScaffolded]
    rw [List.cons_append, step, ih hcs]
    simp

theorem WithIgnoreFlagLoop_bad (env : Env) (cfg : Config) (ignoreGroups : List String)
    (bad : CustomResourceDefinition)
    (post : List CustomResourceDefinition) (hbad : ¬ Resolves bad) :
    OpenAPIGenWithIgnoreFlagLoop env cfg ignoreGroups (bad :: post) =
      (.error (noVersionError bad), []) := by
  have h := (not_resolves_iff bad).mp hbad
  simp only [OpenAPIGenWithIgnoreFlagLoop, resolveVersion_of_not_resolves bad h.1 h.2]

theorem scaffoldCalls_replicate_request (env : Env) (cfg : Config)
    (ignoreGroups : List String) (crds : List CustomResourceDefinition) :
    scaffoldCalls (crds.map (fun crd => List.replicate (timesScaffolded ignoreGroups crd)
          (Event.scaffold (scaffoldRequest env cfg crd).1
            (scaffoldRequest env cfg crd).2))).flatten =
      (crds.map (fun crd => List.replicate (timesScaffolded ignoreGroups crd)
          (scaffoldRequest env cfg crd))).flatten := by
  induction crds with
  | nil => rfl
  | cons c cs ih =>
    simp only [List.map_cons, List.flatten_cons, scaffoldCalls_append, ih]
    congr 1
    generalize timesScaffolded ignoreGroups c = n
    induction n with
    | zero => rfl
    | succ n ihn => simp [List.replicate_succ, scaffoldCalls, ihn]

theorem OpenAPIGen_of_setup (env : Env) (cfg : Config) (crds : List CustomResourceDefinition)
    (t0 : List Event) (hsetup : preScaffoldSetup env = (.ok (cfg, crds), t0)) :
    OpenAPIGen env =
      ((OpenAPIGenLoop env cfg crds).1, t0 ++ (OpenAPIGenLoop env cfg crds).2) := by
  simp [OpenAPIGen, hsetup]

theorem WithIgnoreFlag_of_setup (env : Env) (cfg : Config)
    (crds : List CustomResourceDefinition) (ignoreGroups : List String)
    (t0 : List Event) (hsetup : preScaffoldSetup env = (.ok (cfg, crds), t0)) :
    OpenAPIGenWithIgnoreFlag env ignoreGroups =
      ((OpenAPIGenWithIgnoreFlagLoop env cfg ignoreGroups crds).1,
        t0 ++ (OpenAPIGenWithIgnoreFlagLoop env cfg ignoreGroups crds).2) := by
  simp [OpenAPIGenWithIgnoreFlag, hsetup]

theorem scaffoldCalls_of_setup (env : Env) (cfg : Config)
    (crds : List CustomResourceDefinition)
    (t0 : List Event) (hsetup : preScaffoldSetup env = (.ok (cfg, crds), t0)) :
    scaffoldCalls t0 = [] := by
  have h := scaffoldCalls_preScaffoldSetup env
  rw [hsetup] at h
  exact h

theorem sampleEnv_succeeds (gvs : List (String × List String))
    (crds : List CustomResourceDefinition) : ScaffolderSucceeds (sampleEnv gvs crds) :=
  ⟨fun _ _ => rfl, fun _ _ => rfl⟩

theorem timesScaffolded_none (ignoreGroups : List String) (crd : CustomResourceDefinition)
    (h : ∀ group ∈ ignoreGroups, crd.Spec.Group ≠ group) :
    timesScaffolded ignoreGroups crd = ignoreGroups.length := by
  unfold timesScaffolded
  rw [List.countP_eq_length]
  intro group hmem
  simpa using h group hmem

theorem countP_ne_of_mem (g : String) (ignoreGroups : List String)
    (hnodup : ignoreGroups.Nodup) (hmem : g ∈ ignoreGroups) :
    ignoreGroups.countP (fun group => decide (g ≠ group)) = ignoreGroups.length - 1 := by
  induction ignoreGroups with
  | nil => simp at hmem
  | cons group groups ih =>
    rw [List.nodup_cons] at hnodup
    by_cases hg : g = group
    · subst hg
      have hne : ∀ a ∈ groups, ¬ g = a := fun a ha hga => hnodup.1 (hga ▸ ha)
      simpa [List.countP_cons, List.countP_eq_length] using hne
    · have hmem2 : g ∈ groups := by
        rcases List.mem_cons.mp hmem with h | h
        · exact absurd h hg
        · exact h
      have hpos : 0 < groups.length := List.length_pos_of_mem hmem2
      have h := ih hnodup.2 hmem2
      rw [List.countP_cons, h]
      simp [hg]
      omega

theorem timesScaffolded_one (ignoreGroups : List String) (crd : CustomResourceDefinition)
    (hnodup : ignoreGroups.Nodup) (hmem : crd.Spec.Group ∈ ignoreGroups) :
    timesScaffolded ignoreGroups crd = ignoreGroups.length - 1 :=
  countP_ne_of_mem crd.Spec.Group ignoreGroups hnodup hmem

/-- The version the code passes on for a CRD, read off `resolveVersion`. -/
theorem resolveVersion_ok_iff (crd : CustomResourceDefinition) (v : String)
    (h : resolveVersion crd = .ok v) :
    (crd.Spec.Version ≠ "" → v = crd.Spec.Version) ∧
    (crd.Spec.Version = "" →
      ∃ ver rest, crd.Spec.Versions = ver :: rest ∧ v = ver.Name) := by
  unfold resolveVersion at h
  by_cases hv : crd.Spec.Version = ""
  · refine ⟨fun hne => absurd hv hne, fun _ => ?_⟩
    cases hl : crd.Spec.Versions with
    | nil => simp [hv, hl] at h
    | cons ver rest =>
      simp [hv, hl] at h
      exact ⟨ver, rest, rfl, h.symm⟩
  · refine ⟨fun _ => ?_, fun he => absurd he hv⟩
    simp [hv] at h
    exact h.symm

theorem scaffoldCalls_doScffolding (env : Env) (g v k : String) (cfg : Config) :
    ∀ call ∈ scaffoldCalls (doScffolding env g v k cfg).2,
      call = (cfg, { Resource := { APIVersion := g ++ "/" ++ v, Kind := k }
                     IsOperatorGo := env.isOperatorGo }) := by
  intro call hcall
  unfold doScffolding NewResource at hcall
  cases hr : env.resourceError (g ++ "/" ++ v) k with
  | some err => simp [hr, scaffoldCalls] at hcall
  | none =>
    simp only [hr] at hcall
    split at hcall <;> simpa [scaffoldCalls] using hcall

theorem scaffoldCalls_ignoreLoop (env : Env) (g v k : String) (cfg : Config)
    (ignoreGroups : List String) :
    ∀ call ∈ scaffoldCalls (ignoreLoop env cfg g v k ignoreGroups).2,
      call = (cfg, { Resource := { APIVersion := g ++ "/" ++ v, Kind := k }
                     IsOperatorGo := env.isOperatorGo }) := by
  induction ignoreGroups with
  | nil => intro call h; simp [ignoreLoop, scaffoldCalls] at h
  | cons group groups ih =>
    intro call hcall
    unfold ignoreLoop at hcall
    by_cases hg : g = group
    · simp only [hg, ne_eq, not_true_eq_false, if_false] at hcall
      exact ih call (by simpa [hg] using hcall)
    · simp only [ne_eq, hg, not_false_eq_true, if_true] at hcall
      have hd := scaffoldCalls_doScffolding env g v k cfg
      rcases hdo : doScffolding env g v k cfg with ⟨o, t⟩
      rw [hdo] at hd hcall
      cases o with
      | ok u =>
        simp only [scaffoldCalls_append, List.mem_append] at hcall
        rcases hcall with h | h
        · exact hd call h
        · exact ih call h
      | error e => exact hd call hcall
      | fatal => exact hd call hcall
      | panic => exact hd call hcall

theorem scaffoldCalls_OpenAPIGenLoop (env : Env) (cfg : Config)
    (crds : List CustomResourceDefinition) :
    ∀ call ∈ scaffoldCalls (OpenAPIGenLoop env cfg crds).2,
      ∃ crd ∈ crds, ∃ v, resolveVersion crd = .ok v ∧
        call = (cfg, { Resource := { APIVersion := crd.Spec.Group ++ "/" ++ v
                                     Kind := crd.Spec.Names.Kind }
                       IsOperatorGo := env.isOperatorGo }) := by
  induction crds with
  | nil => intro call h; simp [OpenAPIGenLoop, scaffoldCalls] at h
  | cons c cs ih =>
    intro call hcall
    unfold OpenAPIGenLoop at hcall
    cases hr : resolveVersion c with
    | error err => simp [hr, scaffoldCalls] at hcall
    | ok v =>
      simp only [hr] at hcall
      have hd := scaffoldCalls_doScffolding env c.Spec.Group v c.Spec.Names.Kind cfg
      rcases hdo : doScffolding env c.Spec.Group v c.Spec.Names.Kind cfg with ⟨o, t⟩
      rw [hdo] at hd hcall
      have hhead : call ∈ scaffoldCalls t → ∃ crd ∈ c :: cs, ∃ v, resolveVersion crd = .ok v ∧
          call = (cfg, { Resource := { APIVersion := crd.Spec.Group ++ "/" ++ v
                                       Kind := crd.Spec.Names.Kind }
                         IsOperatorGo := env.isOperatorGo }) :=
        fun h => ⟨c, List.mem_cons_self _ _, v, hr, hd call h⟩
      cases o with
      | ok u =>
        simp only [scaffoldCalls_append, List.mem_append] at hcall
        rcases hcall with h | h
        · exact hhead h
        · obtain ⟨crd, hmem, w, hw, hc⟩ := ih call h
          exact ⟨crd, List.mem_cons_of_mem _ hmem, w, hw, hc⟩
      | error e => exact hhead hcall
      | fatal => exact hhead hcall
      | panic => exact hhead hcall

theorem scaffoldCalls_WithIgnoreFlagLoop (env : Env) (cfg : Config)
    (ignoreGroups : List String) (crds : List CustomResourceDefinition) :
    ∀ call ∈ scaffoldCalls (OpenAPIGenWithIgnoreFlagLoop env cfg ignoreGroups crds).2,
      ∃ crd ∈ crds, ∃ v, resolveVersion crd = .ok v ∧
        call = (cfg, { Resource := { APIVersion := crd.Spec.Group ++ "/" ++ v
                                     Kind := crd.Spec.Names.Kind }
                       IsOperatorGo := env.isOperatorGo }) := by
  induction crds with
  | nil => intro call h; simp [OpenAPIGenWithIgnoreFlagLoop, scaffoldCalls] at h
  | cons c cs ih =>
    intro call hcall
    unfold OpenAPIGenWithIgnoreFlagLoop at hcall
    cases hr : resolveVersion c with
    | error err => simp [hr, scaffoldCalls] at hcall
    | ok v =>
      simp only [hr] at hcall
      have hd := scaffoldCalls_ignoreLoop env c.Spec.Group v c.Spec.Names.Kind cfg
        ignoreGroups
      rcases hdo : ignoreLoop env cfg c.Spec.Group v c.Spec.Names.Kind ignoreGroups
        with ⟨o, t⟩
      rw [hdo] at hd hcall
      have hhead : call ∈ scaffoldCalls t → ∃ crd ∈ c :: cs, ∃ v, resolveVersion crd = .ok v ∧
          call = (cfg, { Resource := { APIVersion := crd.Spec.Group ++ "/" ++ v
                                       Kind := crd.Spec.Names.Kind }
                         IsOperatorGo := env.isOperatorGo }) :=
        fun h => ⟨c, List.mem_cons_self _ _, v, hr, hd call h⟩
      cases o with
      | ok u =>
        simp only [scaffoldCalls_append, List.mem_append] at hcall
        rcases hcall with h | h
        · exact hhead h
        · obtain ⟨crd, hmem, w, hw, hc⟩ := ih call h
          exact ⟨crd, List.mem_cons_of_mem _ hmem, w, hw, hc⟩
      | error e => exact hhead hcall
      | fatal => exact hhead hcall
      | panic => exact hhead hcall

theorem OpenAPIGenLoop_first_bad (env : Env) (hs : ScaffolderSucceeds env) (cfg : Config)
    (pre post : List CustomResourceDefinition) (bad : CustomResourceDefinition)
    (hpre : ∀ crd ∈ pre, Resolves crd) (hbad : ¬ Resolves bad) :
    OpenAPIGenLoop env cfg (pre ++ bad :: post) =
      (.error (noVersionError bad), pre.map (fun crd =>
        Event.scaffold (scaffoldRequest env cfg crd).1 (scaffoldRequest env cfg crd).2)) := by
  rw [OpenAPIGenLoop_append env hs cfg pre (bad :: post) hpre,
    OpenAPIGenLoop_bad env cfg bad post hbad]
  simp

theorem WithIgnoreFlagLoop_first_bad (env : Env) (hs : ScaffolderSucceeds env) (cfg : Config)
    (ignoreGroups : List String)
    (pre post : List CustomResourceDefinition) (bad : CustomResourceDefinition)
    (hpre : ∀ crd ∈ pre, Resolves crd) (hbad : ¬ Resolves bad) :
    OpenAPIGenWithIgnoreFlagLoop env cfg ignoreGroups (pre ++ bad :: post) =
      (.error (noVersionError bad),
        (pre.map (fun crd => List.replicate (timesScaffolded ignoreGroups crd)
          (Event.scaffold (scaffoldRequest env cfg crd).1
            (scaffoldRequest env cfg crd).2))).flatten) := by
  rw [WithIgnoreFlagLoop_append env hs cfg ignoreGroups pre (bad :: post) hpre,
    WithIgnoreFlagLoop_bad env cfg ignoreGroups bad post hbad]
  simp

theorem OpenAPIGenLoop_outcome (env : Env) (hs : ScaffolderSucceeds env) (cfg : Config)
    (crds : List CustomResourceDefinition) :
    ((∀ crd ∈ crds, Resolves crd) ∧ (OpenAPIGenLoop env cfg crds).1 = .ok ()) ∨
    ∃ pre bad post, crds = pre ++ bad :: post ∧ (∀ crd ∈ pre, Resolves crd) ∧
      ¬ Resolves bad ∧ (OpenAPIGenLoop env cfg crds).1 = .error (noVersionError bad) := by
  rcases resolves_all_or_first_bad crds with h | ⟨pre, bad, post, hsplit, hpre, hbad⟩
  · left
    refine ⟨h, ?_⟩
    have := OpenAPIGenLoop_append env hs cfg crds [] h
    rw [List.append_nil] at this
    rw [this]
    rfl
  · right
    refine ⟨pre, bad, post, hsplit, hpre, hbad, ?_⟩
    rw [hsplit, OpenAPIGenLoop_first_bad env hs cfg pre post bad hpre hbad]

theorem WithIgnoreFlagLoop_outcome (env : Env) (hs : ScaffolderSucceeds env) (cfg : Config)
    (ignoreGroups : List String) (crds : List CustomResourceDefinition) :
    (OpenAPIGenWithIgnoreFlagLoop env cfg ignoreGroups crds).1 =
      (OpenAPIGenLoop env cfg crds).1 := by
  rcases resolves_all_or_first_bad crds with h | ⟨pre, bad, post, hsplit, hpre, hbad⟩
  · have h1 := OpenAPIGenLoop_append env hs cfg crds [] h
    have h2 := WithIgnoreFlagLoop_append env hs cfg ignoreGroups crds [] h
    rw [List.append_nil] at h1 h2
    rw [h1, h2]
    rfl
  · rw [hsplit, OpenAPIGenLoop_first_bad env hs cfg pre post bad hpre hbad,
      WithIgnoreFlagLoop_first_bad env hs cfg ignoreGroups pre post bad hpre hbad]

theorem indexFrom_range (sub s : List Char) (i : Nat) :
    indexFrom sub s i = -1 ∨
      ((i : Int) ≤ indexFrom sub s i ∧ indexFrom sub s i ≤ (i : Int) + s.length) := by
  induction s generalizing i with
  | nil =>
    unfold indexFrom
    split
    · right; simp
    · left; rfl
  | cons c s ih =>
    unfold indexFrom
    split
    · right
      simp only [List.length_cons]
      omega
    · rcases ih (i + 1) with h | ⟨h1, h2⟩
      · left; exact h
      · right
        simp only [List.length_cons]
        push_cast at h1 h2 ⊢
        omega

theorem relativeAPIPath_of_index (apisDir api : String)
    (h : 0 ≤ stringsIndex (FromSlash api) apisDir) :
    ∃ apiPath, relativeAPIPath apisDir api = some apiPath := by
  unfold relativeAPIPath sliceFrom
  have hr := indexFrom_range apisDir.data (FromSlash api).data 0
  unfold stringsIndex at h
  have hle : indexFrom apisDir.data (FromSlash api).data 0 ≤ ((FromSlash api).length : Int) := by
    have hlen : ((FromSlash api).length : Int) = ((FromSlash api).data.length : Int) := rfl
    rcases hr with hr | ⟨_, hr⟩
    · omega
    · omega
  simp only [stringsIndex]
  rw [if_pos ⟨h, hle⟩]
  exact ⟨_, rfl⟩

theorem generatorRuns_map_generate (l : List GeneratorArgs) :
    generatorRuns (l.map Event.generate) = l := by
  induction l with
  | nil => rfl
  | cons a l ih => simp [generatorRuns, ih]

/-- The loop of `openAPIGen` over a run of paths on which translation,
validation and execution succeed. -/
theorem openAPIGenLoop_append (env : Env) (hf wd : String) (pre rest : List String)
    (hpre : ∀ a ∈ pre, ∃ p, relativeAPIPath env.ApisDir a = some p ∧
      env.validate (generatorArgs env hf wd p) = none ∧
      env.execute (generatorArgs env hf wd p) = none) :
    openAPIGenLoop env hf wd (pre ++ rest) =
      ((openAPIGenLoop env hf wd rest).1,
        ((pre.filterMap (relativeAPIPath env.ApisDir)).map
          (fun p => Event.generate (generatorArgs env hf wd p))) ++
        (openAPIGenLoop env hf wd rest).2) := by
  induction pre with
  | nil => rfl
  | cons a as ih =>
    obtain ⟨p, hp, hv, he⟩ := hpre a (List.mem_cons_self _ _)
    have has : ∀ a ∈ as, ∃ p, relativeAPIPath env.ApisDir a = some p ∧
        env.validate (generatorArgs env hf wd p) = none ∧
        env.execute (generatorArgs env hf wd p) = none :=
      fun x hx => hpre x (List.mem_cons_of_mem _ hx)
    have step : openAPIGenLoop env hf wd (a :: (as ++ rest)) =
        ((openAPIGenLoop env hf wd (as ++ rest)).1,
          Event.generate (generatorArgs env hf wd p) ::
            (openAPIGenLoop env hf wd (as ++ rest)).2) := by
      simp [openAPIGenLoop, hp, hv, he]
    rw [List.cons_append, step, ih has]
    simp [List.filterMap_cons, hp]

theorem filterMap_length_of_defined (apisDir : String) (l : List String)
    (h : ∀ a ∈ l, ∃ p, relativeAPIPath apisDir a = some p) :
    (l.filterMap (relativeAPIPath apisDir)).length = l.length := by
  induction l with
  | nil => rfl
  | cons a as ih =>
    obtain ⟨p, hp⟩ := h a (List.mem_cons_self _ _)
    simp [List.filterMap_cons, hp, ih (fun x hx => h x (List.mem_cons_of_mem _ hx))]

theorem filterMap_getElem_of_defined (apisDir : String) (l : List String)
    (h : ∀ a ∈ l, ∃ p, relativeAPIPath apisDir a = some p) (i : Nat) (api : String)
    (hi : l[i]? = some api) :
    ∃ p, relativeAPIPath apisDir api = some p ∧
      (l.filterMap (relativeAPIPath apisDir))[i]? = some p := by
  induction l generalizing i with
  | nil => simp at hi
  | cons a as ih =>
    obtain ⟨p, hp⟩ := h a (List.mem_cons_self _ _)
    cases i with
    | zero =>
      simp at hi
      subst hi
      exact ⟨p, hp, by simp [List.filterMap_cons, hp]⟩
    | succ j =>
      simp at hi
      obtain ⟨q, hq, hget⟩ := ih (fun x hx => h x (List.mem_cons_of_mem _ hx)) j hi
      exact ⟨q, hq, by simp [List.filterMap_cons, hp, hget]⟩

theorem generatorRuns_doScffolding (env : Env) (g v k : String) (cfg : Config) :
    generatorRuns (doScffolding env g v k cfg).2 = [] := by
  unfold doScffolding
  cases NewResource env (g ++ "/" ++ v) k with
  | error err => rfl
  | ok r =>
    simp only
    cases env.scaffoldExecute cfg { Resource := r, IsOperatorGo := env.isOperatorGo } <;> rfl

theorem generatorRuns_ignoreLoop (env : Env) (g v k : String) (cfg : Config)
    (ignoreGroups : List String) :
    generatorRuns (ignoreLoop env cfg g v k ignoreGroups).2 = [] := by
  induction ignoreGroups with
  | nil => rfl
  | cons group groups ih =>
    unfold ignoreLoop
    by_cases hg : g = group
    · simpa [hg] using ih
    · simp only [ne_eq, hg, not_false_eq_true, if_true]
      have hd := generatorRuns_doScffolding env g v k cfg
      rcases hdo : doScffolding env g v k cfg with ⟨o, t⟩
      rw [hdo] at hd
      simp only at hd
      cases o <;> simp [hdo, generatorRuns_append, hd, ih]

theorem generatorRuns_OpenAPIGenLoop (env : Env) (cfg : Config)
    (crds : List CustomResourceDefinition) :
    generatorRuns (OpenAPIGenLoop env cfg crds).2 = [] := by
  induction crds with
  | nil => rfl
  | cons c cs ih =>
    unfold OpenAPIGenLoop
    cases hr : resolveVersion c with
    | error err => rfl
    | ok v =>
      have hd := generatorRuns_doScffolding env c.Spec.Group v c.Spec.Names.Kind cfg
      rcases hdo : doScffolding env c.Spec.Group v c.Spec.Names.Kind cfg with ⟨o, t⟩
      rw [hdo] at hd
      simp only at hd
      cases o <;> simp [hdo, generatorRuns_append, hd, ih]

theorem generatorRuns_WithIgnoreFlagLoop (env : Env) (cfg : Config)
    (ignoreGroups : List String) (crds : List CustomResourceDefinition) :
    generatorRuns (OpenAPIGenWithIgnoreFlagLoop env cfg ignoreGroups crds).2 = [] := by
  induction crds with
  | nil => rfl
  | cons c cs ih =>
    unfold OpenAPIGenWithIgnoreFlagLoop
    cases hr : resolveVersion c with
    | error err => rfl
    | ok v =>
      have hd := generatorRuns_ignoreLoop env c.Spec.Group v c.Spec.Names.Kind cfg
        ignoreGroups
      rcases hdo : ignoreLoop env cfg c.Spec.Group v c.Spec.Names.Kind ignoreGroups
        with ⟨o, t⟩
      rw [hdo] at hd
      simp only at hd
      cases o <;> simp [hdo, generatorRuns_append, hd, ih]

/-- Both entry points make the generator runs of the setup and no other. -/
theorem generatorRuns_entry_points (env : Env) (ignoreGroups : List String) :
    generatorRuns (OpenAPIGen env).2 = generatorRuns (preScaffoldSetup env).2 ∧
    generatorRuns (OpenAPIGenWithIgnoreFlag env ignoreGroups).2 =
      generatorRuns (preScaffoldSetup env).2 := by
  unfold OpenAPIGen OpenAPIGenWithIgnoreFlag
  rcases hp : preScaffoldSetup env with ⟨o, t⟩
  cases o with
  | ok a =>
    obtain ⟨cfg, crds⟩ := a
    simp [generatorRuns_append, generatorRuns_OpenAPIGenLoop,
      generatorRuns_WithIgnoreFlagLoop]
  | error e => simp
  | fatal => simp
  | panic => simp

/-- The setup, once the project is found and its API tree parsed, ends as
the generation phase does when that fails, and otherwise as `GetCRDs`. -/
theorem preScaffoldSetup_reached (env : Env) (wd : String)
    (gvMap : List (String × List String))
    (hroot : env.inProjectRoot = true) (hwd : env.mustGetwd = some wd)
    (hgv : env.parseGroupSubpackages env.ApisDir = .ok gvMap) :
    preScaffoldSetup env =
      match generateWithHeaderFile env
        (fun a => openAPIGen env a (CreateFQAPIs (Join [env.goPkg, env.ApisDir]) gvMap)) with
      | (.error err, t) => (.error err, t)
      | (.fatal, t) => (.fatal, t)
      | (.panic, t) => (.panic, t)
      | (.ok (), t) =>
        match env.getCRDs env.CRDsDir with
        | .error err => (.error err, t)
        | .ok crds =>
          (.ok ({ Repo := env.goPkg, AbsProjectPath := wd, ProjectName := Base wd }, crds), t) := by
  unfold preScaffoldSetup
  simp [hroot, hwd, hgv]

theorem splitSep_ne_nil (l : List Char) : splitSep l ≠ [] := by
  cases l with
  | nil => simp [splitSep]
  | cons c cs =>
    unfold splitSep
    split
    · simp
    · split <;> simp

theorem joinSep_cons_cons (c : Char) (e : List Char) (es : List (List Char)) :
    joinSep ((c :: e) :: es) = c :: joinSep (e :: es) := by
  cases es <;> simp [joinSep]

theorem splitSep_cons_sep (c : Char) (cs : List Char) (hc : c = Separator) :
    splitSep (c :: cs) = [] :: splitSep cs := by
  rw [splitSep, if_pos hc]

theorem splitSep_cons_ne (c : Char) (cs e : List Char) (es : List (List Char))
    (hc : c ≠ Separator) (hs : splitSep cs = e :: es) :
    splitSep (c :: cs) = (c :: e) :: es := by
  rw [splitSep, if_neg hc, hs]

theorem joinSep_splitSep (l : List Char) : joinSep (splitSep l) = l := by
  induction l with
  | nil => simp [splitSep, joinSep]
  | cons c cs ih =>
    cases hs : splitSep cs with
    | nil => exact absurd hs (splitSep_ne_nil cs)
    | cons e es =>
      rw [hs] at ih
      by_cases hc : c = Separator
      · rw [splitSep_cons_sep c cs hc, hs,
          show joinSep ([] :: e :: es) = [] ++ Separator :: joinSep (e :: es) from rfl, ih, hc]
        rfl
      · rw [splitSep_cons_ne c cs e es hc hs, joinSep_cons_cons, ih]

theorem splitSep_append (a b : List Char) :
    splitSep (a ++ Separator :: b) = splitSep a ++ splitSep b := by
  induction a with
  | nil => rw [List.nil_append, splitSep_cons_sep _ _ rfl]; rfl
  | cons c cs ih =>
    simp only [List.cons_append]
    cases hs : splitSep cs with
    | nil => exact absurd hs (splitSep_ne_nil cs)
    | cons e es =>
      by_cases hc : c = Separator
      · rw [splitSep_cons_sep c _ hc, splitSep_cons_sep c _ hc, ih, hs]
        rfl
      · rw [splitSep_cons_ne c cs e es hc hs,
          splitSep_cons_ne c (cs ++ Separator :: b) e (es ++ splitSep b) hc
            (by rw [ih, hs]; rfl)]
        rfl

theorem splitSep_of_not_mem (e : List Char) (h : Separator ∉ e) : splitSep e = [e] := by
  induction e with
  | nil => rfl
  | cons c cs ih =>
    have hc : c ≠ Separator := fun hc => h (hc ▸ List.mem_cons_self _ _)
    have hcs : Separator ∉ cs := fun hm => h (List.mem_cons_of_mem _ hm)
    unfold splitSep
    rw [if_neg hc, ih hcs]

theorem cleanStep_elem (rooted : Bool) (out : List (List Char)) (e : List Char)
    (h : IsElem e) : cleanStep rooted out e = e :: out := by
  obtain ⟨h1, _, h3, h4⟩ := h
  unfold cleanStep
  rw [if_neg (by simp [h1, h3]), if_neg h4]

theorem foldl_cleanStep_elems (rooted : Bool) (elems out : List (List Char))
    (h : ∀ e ∈ elems, IsElem e) :
    elems.foldl (cleanStep rooted) out = elems.reverse ++ out := by
  induction elems generalizing out with
  | nil => rfl
  | cons e es ih =>
    rw [List.foldl_cons, cleanStep_elem rooted out e (h e (List.mem_cons_self _ _)),
      ih _ (fun x hx => h x (List.mem_cons_of_mem _ hx))]
    simp

/-- The function `Clean` leaves a relative path of ordinary elements as it
is. -/
theorem cleanChars_of_elems (l : List Char) (h : ∀ e ∈ splitSep l, IsElem e) :
    cleanChars l = l := by
  cases l with
  | nil =>
    have := h [] (by simp [splitSep])
    exact absurd rfl this.1
  | cons c cs =>
    have hc : c ≠ Separator := by
      intro hc
      have := h [] (by unfold splitSep; simp [hc])
      exact absurd rfl this.1
    unfold cleanChars
    simp only [hc, decide_False, Bool.false_eq_true, if_false]
    rw [foldl_cleanStep_elems false _ _ h]
    simp [joinSep_splitSep]

theorem startsWith_append_true (s sub rest : List Char) (h : startsWith s sub = true) :
    startsWith (s ++ rest) sub = true := by
  induction s generalizing sub with
  | nil =>
    cases sub with
    | nil => cases rest <;> rfl
    | cons d p => simp [startsWith] at h
  | cons c s ih =>
    cases sub with
    | nil => rfl
    | cons d p =>
      simp only [startsWith, Bool.and_eq_true] at h
      simp only [List.cons_append, startsWith, Bool.and_eq_true]
      exact ⟨h.1, ih p h.2⟩

theorem startsWith_append_false (s sub rest : List Char) (h : startsWith s sub = false)
    (hlen : sub.length ≤ s.length) : startsWith (s ++ rest) sub = false := by
  induction s generalizing sub with
  | nil =>
    cases sub with
    | nil => simp [startsWith] at h
    | cons d p => simp at hlen
  | cons c s ih =>
    cases sub with
    | nil => simp [startsWith] at h
    | cons d p =>
      simp only [startsWith, Bool.and_eq_false_iff] at h
      simp only [List.cons_append, startsWith, Bool.and_eq_false_iff]
      rcases h with h | h
      · exact Or.inl h
      · exact Or.inr (ih p h (by simpa using hlen))

/-- An occurrence found in `s` is the first one in every extension of `s`. -/
theorem indexFrom_append (sub s rest : List Char) (i k : Nat)
    (h : indexFrom sub s i = (i : Int) + k) (hlen : k + sub.length ≤ s.length) :
    indexFrom sub (s ++ rest) i = (i : Int) + k := by
  induction s generalizing i k with
  | nil =>
    have hsub : sub = [] := by
      cases sub with
      | nil => rfl
      | cons d p => simp at hlen
    have hk : k = 0 := by simp at hlen; exact hlen.1
    subst hsub hk
    cases rest with
    | nil => simp [indexFrom]
    | cons c r => simp [indexFrom, startsWith]
  | cons c s ih =>
    unfold indexFrom at h
    simp only [List.cons_append]
    unfold indexFrom
    by_cases hs : startsWith (c :: s) sub = true
    · rw [if_pos hs] at h
      have := startsWith_append_true (c :: s) sub rest hs
      simp only [List.cons_append] at this
      rw [if_pos this]
      exact h
    · rw [if_neg hs] at h
      have hk : 1 ≤ k := by
        rcases indexFrom_range sub s (i + 1) with hr | ⟨hr, _⟩
        · omega
        · push_cast at hr
          omega
      have hfalse := startsWith_append_false (c :: s) sub rest (by simpa using hs)
        (by simp only [List.length_cons] at hlen ⊢; omega)
      simp only [List.cons_append] at hfalse
      rw [if_neg (by simp [hfalse])]
      have := ih (i + 1) (k - 1) (by push_cast; omega)
        (by simp only [List.length_cons] at hlen; omega)
      rw [this]
      push_cast
      omega

theorem data_ne_nil_of_cleanRel (p : String) (h : IsCleanRel p) : p.data ≠ [] := by
  intro hp
  have := h [] (by rw [hp]; simp [splitSep])
  exact absurd rfl this.1

theorem ne_empty_of_data (p : String) (h : p.data ≠ []) : p ≠ "" := by
  intro hp
  exact h (by rw [hp])

theorem Clean_of_elems (l : List Char) (h : ∀ e ∈ splitSep l, IsElem e) :
    Clean (String.mk l) = String.mk l := by
  unfold Clean
  rw [cleanChars_of_elems l h]

theorem elems_append (a b : List Char) (ha : ∀ e ∈ splitSep a, IsElem e)
    (hb : ∀ e ∈ splitSep b, IsElem e) :
    ∀ e ∈ splitSep (a ++ Separator :: b), IsElem e := by
  intro e he
  rw [splitSep_append, List.mem_append] at he
  rcases he with he | he
  · exact ha e he
  · exact hb e he

theorem elems_single (e : List Char) (h : IsElem e) : ∀ x ∈ splitSep e, IsElem x := by
  intro x hx
  rw [splitSep_of_not_mem e h.2.1, List.mem_singleton] at hx
  exact hx ▸ h

/-- The fully-qualified path of a group/version package under a module root
of ordinary elements is the plain concatenation. -/
theorem Join_fqApi (apisDir r g v : String)
    (hr : IsCleanRel r) (hA : IsCleanRel apisDir)
    (hg : IsElem g.data) (hv : IsElem v.data) :
    Join [r, apisDir] = String.mk (r.data ++ Separator :: apisDir.data) ∧
    Join [r, apisDir, g, v] =
      String.mk ((r.data ++ Separator :: apisDir.data) ++
        Separator :: (g.data ++ Separator :: v.data)) ∧
    Join [Join [r, apisDir], g, v] = Join [r, apisDir, g, v] := by
  have hrne : r ≠ "" := ne_empty_of_data r (data_ne_nil_of_cleanRel r hr)
  have hrA := elems_append r.data apisDir.data hr hA
  have hgv := elems_append g.data v.data (elems_single _ hg) (elems_single _ hv)
  have hall := elems_append (r.data ++ Separator :: apisDir.data)
    (g.data ++ Separator :: v.data) hrA hgv
  have h1 : Join [r, apisDir] = String.mk (r.data ++ Separator :: apisDir.data) := by
    simp only [Join, hrne, if_false, List.map, joinSep]
    exact Clean_of_elems _ hrA
  have h2 : Join [r, apisDir, g, v] =
      String.mk ((r.data ++ Separator :: apisDir.data) ++
        Separator :: (g.data ++ Separator :: v.data)) := by
    simp only [Join, hrne, if_false, List.map, joinSep]
    rw [← Clean_of_elems _ hall]
    simp
  refine ⟨h1, h2, ?_⟩
  rw [h1, h2]
  have hne : String.mk (r.data ++ Separator :: apisDir.data) ≠ "" :=
    ne_empty_of_data _ (by simp)
  simp only [Join, hne, if_false, List.map, joinSep]
  exact Clean_of_elems _ hall

/-! ## The claims -/

/-- C1. Unconditional mode: when the setup has delivered the CRD list, the
scaffolder succeeds on every request and every CRD's version resolves,
`OpenAPIGen` succeeds and its scaffold invocations are exactly one per CRD,
in list order, the i-th for the identity (group/resolved version, kind) of
the i-th CRD, whatever the groups are. -/
theorem OpenAPIGen_scaffolds_each_once (env : Env) (cfg : Config)
    (crds : List CustomResourceDefinition) (t0 : List Event)
    (hsetup : preScaffoldSetup env = (.ok (cfg, crds), t0))
    (hs : ScaffolderSucceeds env)
    (hv : ∀ crd ∈ crds, Resolves crd) :
    (OpenAPIGen env).1 = .ok () ∧
    scaffoldCalls (OpenAPIGen env).2 = crds.map (scaffoldRequest env cfg) ∧
    (scaffoldCalls (OpenAPIGen env).2).length = crds.length := by
  have hloop := OpenAPIGenLoop_append env hs cfg crds [] hv
  rw [List.append_nil] at hloop
  have hrun := OpenAPIGen_of_setup env cfg crds t0 hsetup
  have hcalls : scaffoldCalls (OpenAPIGen env).2 = crds.map (scaffoldRequest env cfg) := by
    rw [hrun, hloop]
    simp [scaffoldCalls_append, scaffoldCalls_of_setup env cfg crds t0 hsetup,
      scaffoldCalls_map_request, OpenAPIGenLoop, scaffoldCalls]
  refine ⟨?_, hcalls, ?_⟩
  · rw [hrun, hloop]
    rfl
  · rw [hcalls, List.length_map]

/-- Witness of C1: three kinds of one group and version in the sample
project are scaffolded once each, in order. -/
theorem OpenAPIGen_scaffolds_each_once_witness :
    preScaffoldSetup (sampleEnv [("app", ["v1"])] threeKinds) =
      (.ok (sampleConfig, threeKinds), [.generate (sampleRun "app" "v1")]) ∧
    ScaffolderSucceeds (sampleEnv [("app", ["v1"])] threeKinds) ∧
    (∀ crd ∈ threeKinds, Resolves crd) ∧
    ((OpenAPIGen (sampleEnv [("app", ["v1"])] threeKinds)).1 = .ok () ∧
      scaffoldCalls (OpenAPIGen (sampleEnv [("app", ["v1"])] threeKinds)).2 =
        threeKinds.map (scaffoldRequest (sampleEnv [("app", ["v1"])] threeKinds) sampleConfig) ∧
      (scaffoldCalls (OpenAPIGen (sampleEnv [("app", ["v1"])] threeKinds)).2).length =
        threeKinds.length) ∧
    (scaffoldCalls (OpenAPIGen (sampleEnv [("app", ["v1"])] threeKinds)).2).map
        (fun call => (call.2.Resource.APIVersion, call.2.Resource.Kind)) =
      [("app/v1", "Memcached"), ("app/v1", "Redis"), ("app/v1", "Etcd")] :=
  ⟨by decide, sampleEnv_succeeds _ _, by decide,
    OpenAPIGen_scaffolds_each_once (sampleEnv [("app", ["v1"])] threeKinds) sampleConfig
      threeKinds [.generate (sampleRun "app" "v1")] (by decide) (sampleEnv_succeeds _ _)
      (by decide),
    by decide⟩

/-- C2. Group-excluding mode: when the setup has delivered the CRD list,
the scaffolder succeeds on every request and every CRD's version resolves,
`OpenAPIGenWithIgnoreFlag` succeeds for every ignore list (the empty one
included) and scaffolds each CRD, in list order, as many times in a row as
the ignore list has entries different from its group.  Hence a CRD whose
group matches none of the n entries is scaffolded n times, one whose group
is one of n > 1 distinct entries n - 1 times, and with the ignore list
g1, g2 a CRD of group g3 twice. -/
theorem OpenAPIGenWithIgnoreFlag_scaffold_counts (env : Env) (cfg : Config)
    (crds : List CustomResourceDefinition) (t0 : List Event) (ignoreGroups : List String)
    (hsetup : preScaffoldSetup env = (.ok (cfg, crds), t0))
    (hs : ScaffolderSucceeds env)
    (hv : ∀ crd ∈ crds, Resolves crd) :
    (OpenAPIGenWithIgnoreFlag env ignoreGroups).1 = .ok () ∧
    scaffoldCalls (OpenAPIGenWithIgnoreFlag env ignoreGroups).2 =
      (crds.map (fun crd => List.replicate
        (ignoreGroups.countP (fun group => decide (crd.Spec.Group ≠ group)))
        (scaffoldRequest env cfg crd))).flatten ∧
    (∀ crd ∈ crds, (∀ group ∈ ignoreGroups, crd.Spec.Group ≠ group) →
      ignoreGroups.countP (fun group => decide (crd.Spec.Group ≠ group)) =
        ignoreGroups.length) ∧
    (∀ crd ∈ crds, ignoreGroups.Nodup → 1 < ignoreGroups.length →
      crd.Spec.Group ∈ ignoreGroups →
      ignoreGroups.countP (fun group => decide (crd.Spec.Group ≠ group)) =
        ignoreGroups.length - 1) ∧
    (∀ crd, crds = [crd] → crd.Spec.Group = "g3" →
      scaffoldCalls (OpenAPIGenWithIgnoreFlag env ["g1", "g2"]).2 =
        [scaffoldRequest env cfg crd, scaffoldRequest env cfg crd]) := by
  have hloop : ∀ L, OpenAPIGenWithIgnoreFlagLoop env cfg L crds =
      (.ok (), (crds.map (fun crd => List.replicate (timesScaffolded L crd)
          (Event.scaffold (scaffoldRequest env cfg crd).1
            (scaffoldRequest env cfg crd).2))).flatten) := by
    intro L
    have h := WithIgnoreFlagLoop_append env hs cfg L crds [] hv
    rw [List.append_nil] at h
    rw [h]
    simp [OpenAPIGenWithIgnoreFlagLoop]
  have hcalls : ∀ L, scaffoldCalls (OpenAPIGenWithIgnoreFlag env L).2 =
      (crds.map (fun crd => List.replicate (timesScaffolded L crd)
        (scaffoldRequest env cfg crd))).flatten := by
    intro L
    rw [WithIgnoreFlag_of_setup env cfg crds L t0 hsetup, hloop L]
    simp only [scaffoldCalls_append, scaffoldCalls_of_setup env cfg crds t0 hsetup,
      List.nil_append, scaffoldCalls_replicate_request]
  refine ⟨?_, hcalls ignoreGroups, ?_, ?_, ?_⟩
  · rw [WithIgnoreFlag_of_setup env cfg crds ignoreGroups t0 hsetup, hloop ignoreGroups]
  · intro crd _ h
    exact timesScaffolded_none ignoreGroups crd h
  · intro crd _ hnodup _ hmem
    exact timesScaffolded_one ignoreGroups crd hnodup hmem
  · intro crd hcrds hg
    rw [hcalls ["g1", "g2"], hcrds]
    simp [timesScaffolded, hg, List.countP_cons, List.replicate]

/-- Witness of C2: in the sample project with the ignore list g1, g2 the
only CRD, of group g3, is scaffolded twice. -/
theorem OpenAPIGenWithIgnoreFlag_scaffold_counts_witness :
    preScaffoldSetup (sampleEnv [("g3", ["v1"])] [sampleCRD "g3" "v1" "Memcached" []]) =
      (.ok (sampleConfig, [sampleCRD "g3" "v1" "Memcached" []]),
        [.generate (sampleRun "g3" "v1")]) ∧
    ScaffolderSucceeds (sampleEnv [("g3", ["v1"])] [sampleCRD "g3" "v1" "Memcached" []]) ∧
    (∀ crd ∈ [sampleCRD "g3" "v1" "Memcached" []], Resolves crd) ∧
    (OpenAPIGenWithIgnoreFlag (sampleEnv [("g3", ["v1"])]
      [sampleCRD "g3" "v1" "Memcached" []]) ["g1", "g2"]).1 = .ok () ∧
    scaffoldCalls (OpenAPIGenWithIgnoreFlag (sampleEnv [("g3", ["v1"])]
      [sampleCRD "g3" "v1" "Memcached" []]) ["g1", "g2"]).2 =
      [(sampleConfig, { Resource := { APIVersion := "g3/v1", Kind := "Memcached" }
                        IsOperatorGo := true }),
        (sampleConfig, { Resource := { APIVersion := "g3/v1", Kind := "Memcached" }
                         IsOperatorGo := true })] :=
  ⟨by decide, sampleEnv_succeeds _ _, by decide,
    (OpenAPIGenWithIgnoreFlag_scaffold_counts
      (sampleEnv [("g3", ["v1"])] [sampleCRD "g3" "v1" "Memcached" []]) sampleConfig
      [sampleCRD "g3" "v1" "Memcached" []] [.generate (sampleRun "g3" "v1")] ["g1", "g2"]
      (by decide) (sampleEnv_succeeds _ _) (by decide)).1,
    ((OpenAPIGenWithIgnoreFlag_scaffold_counts
      (sampleEnv [("g3", ["v1"])] [sampleCRD "g3" "v1" "Memcached" []]) sampleConfig
      [sampleCRD "g3" "v1" "Memcached" []] [.generate (sampleRun "g3" "v1")] ["g1", "g2"]
      (by decide) (sampleEnv_succeeds _ _) (by decide)).2.2.2.2
        (sampleCRD "g3" "v1" "Memcached" []) rfl rfl).trans (by decide)⟩

/-- C3. Version resolution in both entry points: `resolveVersion` (the text
of lines 44-51 and 70-77) yields the primary version when it is non-empty,
whatever the version list holds, and the name of the first entry of the
version list when the primary version is empty and the list is not; and
every scaffold invocation of `OpenAPIGen` and of `OpenAPIGenWithIgnoreFlag`
is made for a CRD of the list with exactly that version in its identity. -/
theorem version_passed_to_scaffolding (env : Env) (cfg : Config)
    (crds : List CustomResourceDefinition) (t0 : List Event) (ignoreGroups : List String)
    (hsetup : preScaffoldSetup env = (.ok (cfg, crds), t0)) :
    (∀ crd : CustomResourceDefinition, crd.Spec.Version ≠ "" →
      resolveVersion crd = .ok crd.Spec.Version) ∧
    (∀ (crd : CustomResourceDefinition) ver rest, crd.Spec.Version = "" →
      crd.Spec.Versions = ver :: rest → resolveVersion crd = .ok ver.Name) ∧
    (∀ call ∈ scaffoldCalls (OpenAPIGen env).2,
      ∃ crd ∈ crds, ∃ v,
        call = (cfg, { Resource := { APIVersion := crd.Spec.Group ++ "/" ++ v
                                     Kind := crd.Spec.Names.Kind }
                       IsOperatorGo := env.isOperatorGo }) ∧
        (crd.Spec.Version ≠ "" → v = crd.Spec.Version) ∧
        (crd.Spec.Version = "" →
          ∃ ver rest, crd.Spec.Versions = ver :: rest ∧ v = ver.Name)) ∧
    (∀ call ∈ scaffoldCalls (OpenAPIGenWithIgnoreFlag env ignoreGroups).2,
      ∃ crd ∈ crds, ∃ v,
        call = (cfg, { Resource := { APIVersion := crd.Spec.Group ++ "/" ++ v
                                     Kind := crd.Spec.Names.Kind }
                       IsOperatorGo := env.isOperatorGo }) ∧
        (crd.Spec.Version ≠ "" → v = crd.Spec.Version) ∧
        (crd.Spec.Version = "" →
          ∃ ver rest, crd.Spec.Versions = ver :: rest ∧ v = ver.Name)) := by
  have h0 := scaffoldCalls_of_setup env cfg crds t0 hsetup
  refine ⟨?_, ?_, ?_, ?_⟩
  · intro crd hv
    simp [resolveVersion, hv]
  · intro crd ver rest hv hl
    simp [resolveVersion, hv, hl]
  · intro call hcall
    rw [OpenAPIGen_of_setup env cfg crds t0 hsetup] at hcall
    simp only [scaffoldCalls_append, h0, List.nil_append] at hcall
    obtain ⟨crd, hmem, v, hv, hc⟩ := scaffoldCalls_OpenAPIGenLoop env cfg crds call hcall
    exact ⟨crd, hmem, v, hc, resolveVersion_ok_iff crd v hv⟩
  · intro call hcall
    rw [WithIgnoreFlag_of_setup env cfg crds ignoreGroups t0 hsetup] at hcall
    simp only [scaffoldCalls_append, h0, List.nil_append] at hcall
    obtain ⟨crd, hmem, v, hv, hc⟩ :=
      scaffoldCalls_WithIgnoreFlagLoop env cfg ignoreGroups crds call hcall
    exact ⟨crd, hmem, v, hc, resolveVersion_ok_iff crd v hv⟩

/-- Witness of C3: in the sample project the kind Redis, with primary
version v1 and version list v1beta1, is scaffolded as app/v1, and the kind
Etcd, with no primary version and version list v1, v2, as app/v1, in both
modes. -/
theorem version_passed_to_scaffolding_witness :
    preScaffoldSetup (sampleEnv [("app", ["v1"])] threeKinds) =
      (.ok (sampleConfig, threeKinds), [.generate (sampleRun "app" "v1")]) ∧
    resolveVersion (sampleCRD "app" "v1" "Redis" ["v1beta1"]) = .ok "v1" ∧
    resolveVersion (sampleCRD "app" "" "Etcd" ["v1", "v2"]) = .ok "v1" ∧
    (scaffoldCalls (OpenAPIGen (sampleEnv [("app", ["v1"])] threeKinds)).2).map
        (fun call => (call.2.Resource.APIVersion, call.2.Resource.Kind)) =
      [("app/v1", "Memcached"), ("app/v1", "Redis"), ("app/v1", "Etcd")] ∧
    (scaffoldCalls (OpenAPIGenWithIgnoreFlag (sampleEnv [("app", ["v1"])] threeKinds)
        ["cache"]).2).map
        (fun call => (call.2.Resource.APIVersion, call.2.Resource.Kind)) =
      [("app/v1", "Memcached"), ("app/v1", "Redis"), ("app/v1", "Etcd")] :=
  ⟨by decide,
    (version_passed_to_scaffolding (sampleEnv [("app", ["v1"])] threeKinds) sampleConfig
      threeKinds [.generate (sampleRun "app" "v1")] ["cache"] (by decide)).1
      (sampleCRD "app" "v1" "Redis" ["v1beta1"]) (by decide),
    (version_passed_to_scaffolding (sampleEnv [("app", ["v1"])] threeKinds) sampleConfig
      threeKinds [.generate (sampleRun "app" "v1")] ["cache"] (by decide)).2.1
      (sampleCRD "app" "" "Etcd" ["v1", "v2"]) { Name := "v1" } [{ Name := "v2" }] rfl rfl,
    by decide, by decide⟩

/-- C4. When the setup has delivered the CRD list and the scaffolder
succeeds on every request: if some CRD has an empty primary version and an
empty version list, the list splits at the first such CRD, `OpenAPIGen`
returns the error "crd of group g kind k has no version" for the group and
kind of that CRD, and its scaffold invocations are exactly those of the CRDs
before it (neither that CRD nor a later one is scaffolded); and `OpenAPIGen`
succeeds if and only if every CRD's version resolves. -/
theorem OpenAPIGen_missing_version (env : Env) (cfg : Config)
    (crds : List CustomResourceDefinition) (t0 : List Event)
    (hsetup : preScaffoldSetup env = (.ok (cfg, crds), t0))
    (hs : ScaffolderSucceeds env) :
    (∀ pre bad post, crds = pre ++ bad :: post → (∀ crd ∈ pre, Resolves crd) →
      bad.Spec.Version = "" → bad.Spec.Versions = [] →
      (OpenAPIGen env).1 = .error (.errorf ("crd of group " ++ bad.Spec.Group ++ " kind " ++
        bad.Spec.Names.Kind ++ " has no version")) ∧
      scaffoldCalls (OpenAPIGen env).2 = pre.map (scaffoldRequest env cfg)) ∧
    ((∃ crd ∈ crds, crd.Spec.Version = "" ∧ crd.Spec.Versions = []) →
      ∃ pre bad post, crds = pre ++ bad :: post ∧ (∀ crd ∈ pre, Resolves crd) ∧
        bad.Spec.Version = "" ∧ bad.Spec.Versions = [] ∧
        (OpenAPIGen env).1 = .error (.errorf ("crd of group " ++ bad.Spec.Group ++
          " kind " ++ bad.Spec.Names.Kind ++ " has no version")) ∧
        scaffoldCalls (OpenAPIGen env).2 = pre.map (scaffoldRequest env cfg)) ∧
    ((OpenAPIGen env).1 = .ok () ↔ ∀ crd ∈ crds, Resolves crd) := by
  have hrun := OpenAPIGen_of_setup env cfg crds t0 hsetup
  have h0 := scaffoldCalls_of_setup env cfg crds t0 hsetup
  have hfirst : ∀ pre bad post, crds = pre ++ bad :: post → (∀ crd ∈ pre, Resolves crd) →
      bad.Spec.Version = "" → bad.Spec.Versions = [] →
      (OpenAPIGen env).1 = .error (.errorf ("crd of group " ++ bad.Spec.Group ++ " kind " ++
        bad.Spec.Names.Kind ++ " has no version")) ∧
      scaffoldCalls (OpenAPIGen env).2 = pre.map (scaffoldRequest env cfg) := by
    intro pre bad post hsplit hpre hv hl
    have hbad : ¬ Resolves bad := (not_resolves_iff bad).mpr ⟨hv, hl⟩
    rw [hrun, hsplit, OpenAPIGenLoop_first_bad env hs cfg pre post bad hpre hbad]
    exact ⟨rfl, by simp [scaffoldCalls_append, h0, scaffoldCalls_map_request]⟩
  refine ⟨hfirst, ?_, ?_⟩
  · rintro ⟨crd, hmem, hv, hl⟩
    rcases resolves_all_or_first_bad crds with hall | ⟨pre, bad, post, hsplit, hpre, hbad⟩
    · exact absurd (hall crd hmem) ((not_resolves_iff crd).mpr ⟨hv, hl⟩)
    · have hb := (not_resolves_iff bad).mp hbad
      exact ⟨pre, bad, post, hsplit, hpre, hb.1, hb.2,
        hfirst pre bad post hsplit hpre hb.1 hb.2⟩
  · rw [hrun]
    rcases OpenAPIGenLoop_outcome env hs cfg crds with ⟨hall, hok⟩ |
      ⟨pre, bad, post, hsplit, hpre, hbad, herr⟩
    · exact ⟨fun _ => hall, fun _ => hok⟩
    · constructor
      · intro hok
        simp only [herr] at hok
        exact absurd hok (by simp)
      · intro hall
        exact absurd (hall bad (by simp [hsplit])) hbad

/-- Witness of C4: in the sample project the second CRD has no version; the
run fails naming its group and kind after scaffolding the first CRD only. -/
theorem OpenAPIGen_missing_version_witness :
    preScaffoldSetup (sampleEnv [("app", ["v1"])] brokenKinds) =
      (.ok (sampleConfig, brokenKinds), [.generate (sampleRun "app" "v1")]) ∧
    ScaffolderSucceeds (sampleEnv [("app", ["v1"])] brokenKinds) ∧
    (OpenAPIGen (sampleEnv [("app", ["v1"])] brokenKinds)).1 =
      .error (.errorf "crd of group cache kind Redis has no version") ∧
    scaffoldCalls (OpenAPIGen (sampleEnv [("app", ["v1"])] brokenKinds)).2 =
      [(sampleConfig, { Resource := { APIVersion := "app/v1", Kind := "Memcached" }
                        IsOperatorGo := true })] ∧
    ¬ (OpenAPIGen (sampleEnv [("app", ["v1"])] brokenKinds)).1 = .ok () :=
  have h := OpenAPIGen_missing_version (sampleEnv [("app", ["v1"])] brokenKinds)
    sampleConfig brokenKinds [.generate (sampleRun "app" "v1")] (by decide)
    (sampleEnv_succeeds _ _)
  have h1 := h.1 [sampleCRD "app" "v1" "Memcached" []] (sampleCRD "cache" "" "Redis" [])
    [sampleCRD "app" "v1" "Etcd" []] rfl (by decide) rfl rfl
  ⟨by decide, sampleEnv_succeeds _ _, h1.1.trans (by decide), h1.2.trans (by decide),
    fun hok => absurd (h.2.2.mp hok) (by decide)⟩

/-- C5. With a working directory and a generator that accepts and runs
every request, `openAPIGen` succeeds and runs the generator exactly once
per entry of the list of fully-qualified API paths (each holding the API
directory), in list order, the i-th run having as its only input directory
the i-th entry in the form `openAPIGen` hands on (`.`, the separator, and
the entry from its first occurrence of the API directory on); the number of
runs is the number of paths.  In a whole run of either entry point the
generator runs are those of the path list, whatever CRDs the manifest
directory holds. -/
theorem openAPIGen_once_per_path (env : Env) (hf wd : String) (fqApis : List String)
    (ignoreGroups : List String)
    (hwd : env.osGetwd = .ok wd)
    (hpaths : ∀ api ∈ fqApis, 0 ≤ stringsIndex (FromSlash api) env.ApisDir)
    (hval : ∀ args, env.validate args = none)
    (hexe : ∀ args, env.execute args = none) :
    (openAPIGen env hf fqApis).1 = .ok () ∧
    (openAPIGen env hf fqApis).2 =
      (generatorRuns (openAPIGen env hf fqApis).2).map Event.generate ∧
    (generatorRuns (openAPIGen env hf fqApis).2).length = fqApis.length ∧
    (∀ (i : Nat) (api : String), fqApis[i]? = some api →
      ∃ apiPath, relativeAPIPath env.ApisDir api = some apiPath ∧
        (generatorRuns (openAPIGen env hf fqApis).2)[i]? =
          some (generatorArgs env hf wd apiPath) ∧
        (generatorArgs env hf wd apiPath).InputDirs = [apiPath]) ∧
    (∀ p gvMap, env.inProjectRoot = true → env.mustGetwd = some p →
      env.parseGroupSubpackages env.ApisDir = .ok gvMap → env.headerFile = .ok hf →
      CreateFQAPIs (Join [env.goPkg, env.ApisDir]) gvMap = fqApis →
      (generatorRuns (OpenAPIGen env).2).length = fqApis.length ∧
      (generatorRuns (OpenAPIGenWithIgnoreFlag env ignoreGroups).2).length =
        fqApis.length) := by
  have hdef : ∀ a ∈ fqApis, ∃ p, relativeAPIPath env.ApisDir a = some p :=
    fun a ha => relativeAPIPath_of_index env.ApisDir a (hpaths a ha)
  have hpre : ∀ a ∈ fqApis, ∃ p, relativeAPIPath env.ApisDir a = some p ∧
      env.validate (generatorArgs env hf wd p) = none ∧
      env.execute (generatorArgs env hf wd p) = none := by
    intro a ha
    obtain ⟨p, hp⟩ := hdef a ha
    exact ⟨p, hp, hval _, hexe _⟩
  have hloop := openAPIGenLoop_append env hf wd fqApis [] hpre
  rw [List.append_nil] at hloop
  have hrun : openAPIGen env hf fqApis =
      (.ok (), ((fqApis.filterMap (relativeAPIPath env.ApisDir)).map
        (generatorArgs env hf wd)).map Event.generate) := by
    unfold openAPIGen
    rw [hwd]
    simp only [hloop, openAPIGenLoop, List.append_nil, List.map_map]
    rfl
  have hlen : (generatorRuns (openAPIGen env hf fqApis).2).length = fqApis.length := by
    rw [hrun]
    simp only [generatorRuns_map_generate, List.length_map]
    exact filterMap_length_of_defined env.ApisDir fqApis hdef
  refine ⟨by rw [hrun], ?_, hlen, ?_, ?_⟩
  · rw [hrun]
    simp only [generatorRuns_map_generate]
  · intro i api hi
    obtain ⟨p, hp, hget⟩ := filterMap_getElem_of_defined env.ApisDir fqApis hdef i api hi
    refine ⟨p, hp, ?_, rfl⟩
    rw [hrun]
    simp only [generatorRuns_map_generate, List.getElem?_map, hget, Option.map_some']
  · intro p gvMap hroot hmwd hgv hhf hfq
    have hsetup := preScaffoldSetup_reached env p gvMap hroot hmwd hgv
    have hgen : generatorRuns (preScaffoldSetup env).2 =
        generatorRuns (openAPIGen env hf fqApis).2 := by
      rw [hsetup]
      simp only [generateWithHeaderFile, hhf, hfq, hrun]
      cases env.getCRDs env.CRDsDir <;> rfl
    have h := generatorRuns_entry_points env ignoreGroups
    rw [h.1, h.2, hgen]
    exact ⟨hlen, hlen⟩

/-- Witness of C5: in the sample project three kinds share the one package
app/v1, and the generator runs exactly once, on `./pkg/apis/app/v1`. -/
theorem openAPIGen_once_per_path_witness :
    (sampleEnv [("app", ["v1"])] threeKinds).osGetwd = .ok "/home/dev/app-operator" ∧
    (∀ api ∈ ["github.com/example/app-operator/pkg/apis/app/v1"],
      0 ≤ stringsIndex (FromSlash api) (sampleEnv [("app", ["v1"])] threeKinds).ApisDir) ∧
    CreateFQAPIs (Join ["github.com/example/app-operator", "pkg/apis"]) [("app", ["v1"])] =
      ["github.com/example/app-operator/pkg/apis/app/v1"] ∧
    threeKinds.length = 3 ∧
    (generatorRuns (OpenAPIGen (sampleEnv [("app", ["v1"])] threeKinds)).2).length = 1 ∧
    generatorRuns (openAPIGen (sampleEnv [("app", ["v1"])] threeKinds)
      "hack/boilerplate.go.txt" ["github.com/example/app-operator/pkg/apis/app/v1"]).2 =
      [sampleRun "app" "v1"] :=
  ⟨rfl, by decide, by decide, rfl,
    ((openAPIGen_once_per_path (sampleEnv [("app", ["v1"])] threeKinds)
      "hack/boilerplate.go.txt" "/home/dev/app-operator"
      ["github.com/example/app-operator/pkg/apis/app/v1"] [] rfl (by decide)
      (fun _ => rfl) (fun _ => rfl)).2.2.2.2
        "/home/dev/app-operator" [("app", ["v1"])] rfl rfl rfl rfl (by decide)).1,
    by decide⟩

/-- C6. Let the path at position i of the API path list (the paths before it
translating, validating and running without error) be rejected by argument
validation or fail in the generator run with the error `err`.  Then
`openAPIGen` returns `err` wrapped with "openapi-gen argument validation
error", respectively "openapi-gen generator error"; the generator has run
for exactly the paths before position i, in order, plus path i itself when
it is the run that failed, and for no later path; and a whole run of
`OpenAPIGen` or `OpenAPIGenWithIgnoreFlag` over that path list ends the same
way, with an error and no scaffold invocation. -/
theorem openAPIGen_failure_aborts (env : Env) (hf wd : String) (pre post : List String)
    (api apiPath : String) (err : GoError) (ignoreGroups : List String)
    (hwd : env.osGetwd = .ok wd)
    (hpre : ∀ a ∈ pre, ∃ p, relativeAPIPath env.ApisDir a = some p ∧
      env.validate (generatorArgs env hf wd p) = none ∧
      env.execute (generatorArgs env hf wd p) = none)
    (hapi : relativeAPIPath env.ApisDir api = some apiPath)
    (hfail : env.validate (generatorArgs env hf wd apiPath) = some err ∨
      (env.validate (generatorArgs env hf wd apiPath) = none ∧
        env.execute (generatorArgs env hf wd apiPath) = some err)) :
    (env.validate (generatorArgs env hf wd apiPath) = some err →
      openAPIGen env hf (pre ++ api :: post) =
        (.error (.wrap err "openapi-gen argument validation error"),
          (pre.filterMap (relativeAPIPath env.ApisDir)).map
            (fun p => Event.generate (generatorArgs env hf wd p))) ∧
      (generatorRuns (openAPIGen env hf (pre ++ api :: post)).2).length = pre.length) ∧
    (env.validate (generatorArgs env hf wd apiPath) = none →
      openAPIGen env hf (pre ++ api :: post) =
        (.error (.wrap err "openapi-gen generator error"),
          (pre.filterMap (relativeAPIPath env.ApisDir)).map
            (fun p => Event.generate (generatorArgs env hf wd p)) ++
          [Event.generate (generatorArgs env hf wd apiPath)]) ∧
      (generatorRuns (openAPIGen env hf (pre ++ api :: post)).2).length = pre.length + 1) ∧
    (∃ e, (openAPIGen env hf (pre ++ api :: post)).1 = .error e) ∧
    (∀ p gvMap, env.inProjectRoot = true → env.mustGetwd = some p →
      env.parseGroupSubpackages env.ApisDir = .ok gvMap → env.headerFile = .ok hf →
      CreateFQAPIs (Join [env.goPkg, env.ApisDir]) gvMap = pre ++ api :: post →
      OpenAPIGen env = openAPIGen env hf (pre ++ api :: post) ∧
      OpenAPIGenWithIgnoreFlag env ignoreGroups = openAPIGen env hf (pre ++ api :: post) ∧
      scaffoldCalls (OpenAPIGen env).2 = [] ∧
      scaffoldCalls (OpenAPIGenWithIgnoreFlag env ignoreGroups).2 = []) := by
  have hdef : ∀ a ∈ pre, ∃ p, relativeAPIPath env.ApisDir a = some p := by
    intro a ha
    obtain ⟨p, hp, _⟩ := hpre a ha
    exact ⟨p, hp⟩
  have hlen := filterMap_length_of_defined env.ApisDir pre hdef
  have hloop := openAPIGenLoop_append env hf wd pre (api :: post) hpre
  have hrun : openAPIGen env hf (pre ++ api :: post) =
      openAPIGenLoop env hf wd (pre ++ api :: post) := by
    unfold openAPIGen
    rw [hwd]
  have hv : env.validate (generatorArgs env hf wd apiPath) = some err →
      openAPIGen env hf (pre ++ api :: post) =
        (.error (.wrap err "openapi-gen argument validation error"),
          (pre.filterMap (relativeAPIPath env.ApisDir)).map
            (fun p => Event.generate (generatorArgs env hf wd p))) := by
    intro h
    rw [hrun, hloop]
    simp [openAPIGenLoop, hapi, h]
  have he : env.validate (generatorArgs env hf wd apiPath) = none →
      openAPIGen env hf (pre ++ api :: post) =
        (.error (.wrap err "openapi-gen generator error"),
          (pre.filterMap (relativeAPIPath env.ApisDir)).map
            (fun p => Event.generate (generatorArgs env hf wd p)) ++
          [Event.generate (generatorArgs env hf wd apiPath)]) := by
    intro h
    have hx : env.execute (generatorArgs env hf wd apiPath) = some err := by
      rcases hfail with h' | ⟨_, h'⟩
      · rw [h] at h'
        exact absurd h' (by simp)
      · exact h'
    rw [hrun, hloop]
    simp [openAPIGenLoop, hapi, h, hx]
  have hgen : ∀ l : List String, generatorRuns (l.map
      (fun p => Event.generate (generatorArgs env hf wd p))) =
      l.map (generatorArgs env hf wd) := by
    intro l
    rw [← generatorRuns_map_generate (l.map (generatorArgs env hf wd)), List.map_map]
    rfl
  have herr : ∃ e, (openAPIGen env hf (pre ++ api :: post)).1 = .error e := by
    rcases hfail with h | ⟨h, _⟩
    · exact ⟨_, by rw [hv h]⟩
    · exact ⟨_, by rw [he h]⟩
  refine ⟨fun h => ⟨hv h, ?_⟩, fun h => ⟨he h, ?_⟩, herr, ?_⟩
  · rw [hv h]
    simp only [hgen, List.length_map, hlen]
  · rw [he h]
    simp only [generatorRuns_append, hgen, List.length_append, List.length_map, hlen,
      generatorRuns, List.length_singleton]
  · intro p gvMap hroot hmwd hgv hhf hfq
    obtain ⟨e, hne⟩ := herr
    have hsetup : preScaffoldSetup env =
        (.error e, (openAPIGen env hf (pre ++ api :: post)).2) := by
      rw [preScaffoldSetup_reached env p gvMap hroot hmwd hgv]
      simp only [generateWithHeaderFile, hhf, hfq]
      rcases hg : openAPIGen env hf (pre ++ api :: post) with ⟨o, t⟩
      rw [hg] at hne
      simp only at hne
      subst hne
      rfl
    have hsame : openAPIGen env hf (pre ++ api :: post) =
        (.error e, (openAPIGen env hf (pre ++ api :: post)).2) := by
      rw [← hne]
    have h1 : OpenAPIGen env = openAPIGen env hf (pre ++ api :: post) := by
      rw [hsame]
      simp [OpenAPIGen, hsetup]
    have h2 : OpenAPIGenWithIgnoreFlag env ignoreGroups =
        openAPIGen env hf (pre ++ api :: post) := by
      rw [hsame]
      simp [OpenAPIGenWithIgnoreFlag, hsetup]
    refine ⟨h1, h2, ?_, ?_⟩
    · rw [h1]
      exact scaffoldCalls_openAPIGen env hf _
    · rw [h2]
      exact scaffoldCalls_openAPIGen env hf _

/-- Witness of C6: in the sample project with the packages app/v1, app/v2
and app/v3, a generator rejecting app/v2 stops the run after one generator
run, and a generator failing on app/v2 after two; neither run scaffolds. -/
theorem openAPIGen_failure_aborts_witness :
    CreateFQAPIs (Join [rejectingEnv.goPkg, rejectingEnv.ApisDir])
        [("app", ["v1", "v2", "v3"])] =
      ["github.com/example/app-operator/pkg/apis/app/v1"] ++
        "github.com/example/app-operator/pkg/apis/app/v2" ::
        ["github.com/example/app-operator/pkg/apis/app/v3"] ∧
    OpenAPIGen rejectingEnv =
      (.error (.wrap (.external "invalid input") "openapi-gen argument validation error"),
        [.generate (sampleRun "app" "v1")]) ∧
    scaffoldCalls (OpenAPIGen rejectingEnv).2 = [] ∧
    OpenAPIGenWithIgnoreFlag failingEnv ["cache"] =
      (.error (.wrap (.external "malformed types") "openapi-gen generator error"),
        [.generate (sampleRun "app" "v1"), .generate (sampleRun "app" "v2")]) ∧
    scaffoldCalls (OpenAPIGenWithIgnoreFlag failingEnv ["cache"]).2 = [] :=
  have h1 := openAPIGen_failure_aborts rejectingEnv "hack/boilerplate.go.txt"
    "/home/dev/app-operator" ["github.com/example/app-operator/pkg/apis/app/v1"]
    ["github.com/example/app-operator/pkg/apis/app/v3"]
    "github.com/example/app-operator/pkg/apis/app/v2" "./pkg/apis/app/v2"
    (.external "invalid input") [] rfl
    (by
      intro a ha
      rw [List.mem_singleton] at ha
      subst ha
      exact ⟨"./pkg/apis/app/v1", by decide, by decide, by decide⟩)
    (by decide) (Or.inl (by decide))
  have h2 := openAPIGen_failure_aborts failingEnv "hack/boilerplate.go.txt"
    "/home/dev/app-operator" ["github.com/example/app-operator/pkg/apis/app/v1"]
    ["github.com/example/app-operator/pkg/apis/app/v3"]
    "github.com/example/app-operator/pkg/apis/app/v2" "./pkg/apis/app/v2"
    (.external "malformed types") ["cache"] rfl
    (by
      intro a ha
      rw [List.mem_singleton] at ha
      subst ha
      exact ⟨"./pkg/apis/app/v1", by decide, by decide, by decide⟩)
    (by decide) (Or.inr ⟨by decide, by decide⟩)
  have r1 := h1.2.2.2 "/home/dev/app-operator" [("app", ["v1", "v2", "v3"])] rfl rfl rfl rfl
    (by decide)
  have r2 := h2.2.2.2 "/home/dev/app-operator" [("app", ["v1", "v2", "v3"])] rfl rfl rfl rfl
    (by decide)
  ⟨by decide, (r1.1.trans (h1.1 (by decide)).1).trans (by decide), r1.2.2.1,
    (r2.2.1.trans (h2.2.1 (by decide)).1).trans (by decide), r2.2.2.2⟩

/-- C7 (as amended).  Every generator run made by `openAPIGen` is for one
path of the list: its only input directory is the working-directory-relative
path of that API package, its output package path is `filepath.Join` of the
working directory and that relative path, and its output file base name is
the constant zz_generated.openapi. -/
theorem openAPIGen_output_arguments (env : Env) (hf : String) (fqApis : List String) :
    ∀ args ∈ generatorRuns (openAPIGen env hf fqApis).2,
      ∃ wd api apiPath, env.osGetwd = .ok wd ∧ api ∈ fqApis ∧
        relativeAPIPath env.ApisDir api = some apiPath ∧
        args.InputDirs = [apiPath] ∧
        args.OutputPackagePath = Join [wd, apiPath] ∧
        args.OutputFileBaseName = "zz_generated.openapi" := by
  unfold openAPIGen
  cases hwd : env.osGetwd with
  | error err => intro args h; simp [generatorRuns] at h
  | ok wd =>
    simp only
    induction fqApis with
    | nil => intro args h; simp [openAPIGenLoop, generatorRuns] at h
    | cons a as ih =>
      intro args hargs
      unfold openAPIGenLoop at hargs
      cases hp : relativeAPIPath env.ApisDir a with
      | none => simp [hp, generatorRuns] at hargs
      | some p =>
        simp only [hp] at hargs
        have hhead : args = generatorArgs env hf wd p →
            ∃ wd' api apiPath, (Except.ok wd : Except GoError String) = Except.ok wd' ∧
              api ∈ a :: as ∧
              relativeAPIPath env.ApisDir api = some apiPath ∧
              args.InputDirs = [apiPath] ∧
              args.OutputPackagePath = Join [wd', apiPath] ∧
              args.OutputFileBaseName = "zz_generated.openapi" := by
          intro h
          subst h
          exact ⟨wd, a, p, rfl, List.mem_cons_self _ _, hp, rfl, rfl, rfl⟩
        cases hv : env.validate (generatorArgs env hf wd p) with
        | some e => simp [hv, generatorRuns] at hargs
        | none =>
          simp only [hv] at hargs
          cases hx : env.execute (generatorArgs env hf wd p) with
          | some e =>
            simp only [hx, generatorRuns, List.mem_singleton] at hargs
            exact hhead hargs
          | none =>
            simp only [hx, generatorRuns, List.mem_cons] at hargs
            rcases hargs with h | h
            · exact hhead h
            · obtain ⟨wd', api, apiPath, h1, h2, h3⟩ := ih args h
              exact ⟨wd', api, apiPath, h1, List.mem_cons_of_mem _ h2, h3⟩

/-- Witness of C7 (as amended): the generator run of the sample project for
the package app/v1. -/
theorem openAPIGen_output_arguments_witness :
    sampleRun "app" "v1" ∈ generatorRuns (openAPIGen (sampleEnv [("app", ["v1"])] threeKinds)
      "hack/boilerplate.go.txt" ["github.com/example/app-operator/pkg/apis/app/v1"]).2 ∧
    (∃ wd api apiPath,
      (sampleEnv [("app", ["v1"])] threeKinds).osGetwd = .ok wd ∧
      api ∈ ["github.com/example/app-operator/pkg/apis/app/v1"] ∧
      relativeAPIPath (sampleEnv [("app", ["v1"])] threeKinds).ApisDir api = some apiPath ∧
      (sampleRun "app" "v1").InputDirs = [apiPath] ∧
      (sampleRun "app" "v1").OutputPackagePath = Join [wd, apiPath] ∧
      (sampleRun "app" "v1").OutputFileBaseName = "zz_generated.openapi") ∧
    Join ["/home/dev/app-operator", "./pkg/apis/app/v1"] =
      "/home/dev/app-operator/pkg/apis/app/v1" :=
  ⟨by decide,
    openAPIGen_output_arguments (sampleEnv [("app", ["v1"])] threeKinds)
      "hack/boilerplate.go.txt" ["github.com/example/app-operator/pkg/apis/app/v1"]
      (sampleRun "app" "v1") (by decide),
    by decide⟩

/-- Counterexample to C7 as stated: in the sample project the generator run
for the package app/v1 has the input directory `./pkg/apis/app/v1` and the
output package path `/home/dev/app-operator/pkg/apis/app/v1`, which is not
the relative path passed as the input directory. -/
theorem openAPIGen_output_package_path_differs :
    generatorRuns (openAPIGen (sampleEnv [("app", ["v1"])] threeKinds)
      "hack/boilerplate.go.txt" ["github.com/example/app-operator/pkg/apis/app/v1"]).2 =
      [sampleRun "app" "v1"] ∧
    (sampleRun "app" "v1").InputDirs = ["./pkg/apis/app/v1"] ∧
    (sampleRun "app" "v1").OutputPackagePath = "/home/dev/app-operator/pkg/apis/app/v1" ∧
    ¬ (∀ args ∈ generatorRuns (openAPIGen (sampleEnv [("app", ["v1"])] threeKinds)
        "hack/boilerplate.go.txt" ["github.com/example/app-operator/pkg/apis/app/v1"]).2,
      args.InputDirs = [args.OutputPackagePath] ∧
        args.OutputFileBaseName = "zz_generated.openapi") := by
  decide

/-- C8. If `GetCRDs` returns an error, neither `OpenAPIGen` nor
`OpenAPIGenWithIgnoreFlag` (for any ignore list) succeeds or makes a
scaffold invocation; and when the run gets as far as reading the manifest
directory (project found, API tree parsed, generation phase without error)
both return that very error. -/
theorem getCRDs_error_propagates (env : Env) (err : GoError) (ignoreGroups : List String)
    (hcrds : env.getCRDs env.CRDsDir = .error err) :
    scaffoldCalls (OpenAPIGen env).2 = [] ∧
    scaffoldCalls (OpenAPIGenWithIgnoreFlag env ignoreGroups).2 = [] ∧
    (OpenAPIGen env).1 ≠ .ok () ∧
    (OpenAPIGenWithIgnoreFlag env ignoreGroups).1 ≠ .ok () ∧
    (∀ wd gvMap t, env.inProjectRoot = true → env.mustGetwd = some wd →
      env.parseGroupSubpackages env.ApisDir = .ok gvMap →
      generateWithHeaderFile env (fun a => openAPIGen env a
        (CreateFQAPIs (Join [env.goPkg, env.ApisDir]) gvMap)) = (.ok (), t) →
      OpenAPIGen env = (.error err, t) ∧
      OpenAPIGenWithIgnoreFlag env ignoreGroups = (.error err, t)) := by
  have hnot : ∀ a, (preScaffoldSetup env).1 ≠ .ok a := by
    intro a
    unfold preScaffoldSetup
    cases env.inProjectRoot
    · simp
    · cases env.mustGetwd with
      | none => simp
      | some p =>
        cases env.parseGroupSubpackages env.ApisDir with
        | error e => simp
        | ok gv =>
          rcases hg : generateWithHeaderFile env
            (fun a => openAPIGen env a (CreateFQAPIs (Join [env.goPkg, env.ApisDir]) gv))
            with ⟨o, t⟩
          cases o <;> simp [hg, hcrds]
  have hsc := scaffoldCalls_preScaffoldSetup env
  have hboth : OpenAPIGen env = ((OpenAPIGen env).1, (preScaffoldSetup env).2) ∧
      OpenAPIGenWithIgnoreFlag env ignoreGroups =
        ((OpenAPIGenWithIgnoreFlag env ignoreGroups).1, (preScaffoldSetup env).2) ∧
      (OpenAPIGen env).1 ≠ .ok () ∧
      (OpenAPIGenWithIgnoreFlag env ignoreGroups).1 ≠ .ok () := by
    unfold OpenAPIGen OpenAPIGenWithIgnoreFlag
    rcases hp : preScaffoldSetup env with ⟨o, t⟩
    cases o with
    | ok a => exact absurd (by rw [hp]) (hnot a)
    | error e => simp
    | fatal => simp
    | panic => simp
  refine ⟨?_, ?_, hboth.2.2.1, hboth.2.2.2, ?_⟩
  · rw [hboth.1]
    exact hsc
  · rw [hboth.2.1]
    exact hsc
  · intro wd gvMap t hroot hwd hgv hgen
    have hsetup : preScaffoldSetup env = (.error err, t) := by
      rw [preScaffoldSetup_reached env wd gvMap hroot hwd hgv, hgen]
      simp [hcrds]
    simp [OpenAPIGen, OpenAPIGenWithIgnoreFlag, hsetup]

/-- Witness of C8: in the sample project with an unreadable manifest
directory both entry points return the error of `GetCRDs` after the one
generator run, without scaffolding. -/
theorem getCRDs_error_propagates_witness :
    unreadableEnv.getCRDs unreadableEnv.CRDsDir =
      .error (.external "open deploy/crds: no such file or directory") ∧
    OpenAPIGen unreadableEnv =
      (.error (.external "open deploy/crds: no such file or directory"),
        [.generate (sampleRun "app" "v1")]) ∧
    OpenAPIGenWithIgnoreFlag unreadableEnv ["g1", "g2"] =
      (.error (.external "open deploy/crds: no such file or directory"),
        [.generate (sampleRun "app" "v1")]) ∧
    scaffoldCalls (OpenAPIGen unreadableEnv).2 = [] ∧
    scaffoldCalls (OpenAPIGenWithIgnoreFlag unreadableEnv ["g1", "g2"]).2 = [] :=
  have h := getCRDs_error_propagates unreadableEnv
    (.external "open deploy/crds: no such file or directory") ["g1", "g2"] rfl
  have r := h.2.2.2.2 "/home/dev/app-operator" [("app", ["v1"])]
    [.generate (sampleRun "app" "v1")] rfl rfl rfl (by decide)
  ⟨rfl, r.1, r.2, h.1, h.2.1⟩

/-- Where lines 148-150 do what the comment on line 149 asks for: for a
module root made of ordinary path elements, an API directory constant of
that form whose first occurrence in root/ApisDir is the trailing one, and a
group and a version that are ordinary path elements, the fully-qualified
path built by `preScaffoldSetup` is root/ApisDir/group/version, the API
directory occurs in it, and `openAPIGen` translates it to exactly
./ApisDir/group/version. -/
theorem relativeAPIPath_of_fqApi (apisDir r g v : String)
    (hr : IsCleanRel r) (hA : IsCleanRel apisDir)
    (hg : IsElem g.data) (hv : IsElem v.data)
    (hfirst : stringsIndex (r ++ "/" ++ apisDir) apisDir = (r.length : Int) + 1) :
    CreateFQAPIs (Join [r, apisDir]) [(g, [v])] = [Join [r, apisDir, g, v]] ∧
    Join [r, apisDir, g, v] = r ++ "/" ++ apisDir ++ "/" ++ g ++ "/" ++ v ∧
    stringsIndex (FromSlash (Join [r, apisDir, g, v])) apisDir ≠ -1 ∧
    relativeAPIPath apisDir (Join [r, apisDir, g, v]) =
      some ("./" ++ apisDir ++ "/" ++ g ++ "/" ++ v) := by
  obtain ⟨_, h2, h3⟩ := Join_fqApi apisDir r g v hr hA hg hv
  have hfs : ∀ p : String, FromSlash p = p := fun p => by simp [FromSlash, Separator]
  have hrl : r.length = r.data.length := rfl
  have hidx : stringsIndex (FromSlash (Join [r, apisDir, g, v])) apisDir =
      (r.length : Int) + 1 := by
    rw [hfs, h2]
    unfold stringsIndex at hfirst ⊢
    have hd : (r ++ "/" ++ apisDir).data = r.data ++ Separator :: apisDir.data := by
      simp [String.data_append, Separator]
    rw [hd] at hfirst
    have := indexFrom_append apisDir.data (r.data ++ Separator :: apisDir.data)
      (Separator :: (g.data ++ Separator :: v.data)) 0 (r.length + 1)
      (by rw [hfirst]; push_cast; ring)
      (by rw [List.length_append, List.length_cons, hrl]; omega)
    rw [this]
    push_cast
    ring
  refine ⟨?_, ?_, ?_, ?_⟩
  · simp [CreateFQAPIs, h3]
  · rw [h2]
    apply String.ext
    simp [String.data_append, Separator]
  · rw [hidx]
    omega
  · unfold relativeAPIPath sliceFrom
    simp only [hidx]
    have hlen : (r.length : Int) + 1 ≤ ((FromSlash (Join [r, apisDir, g, v])).length : Int) := by
      rw [hfs, h2]
      show (r.length : Int) + 1 ≤ ((r.data ++ Separator :: apisDir.data ++
        Separator :: (g.data ++ Separator :: v.data)).length : Int)
      rw [List.length_append, List.length_append, List.length_cons, hrl]
      push_cast
      omega
    rw [if_pos ⟨by omega, hlen⟩]
    simp only [Option.some.injEq]
    rw [hfs, h2]
    apply String.ext
    have htn : ((r.length : Int) + 1).toNat = r.data.length + 1 := by
      rw [hrl]
      omega
    rw [htn]
    have hsplit : r.data ++ Separator :: apisDir.data ++
        Separator :: (g.data ++ Separator :: v.data) =
        (r.data ++ [Separator]) ++ (apisDir.data ++
          Separator :: (g.data ++ Separator :: v.data)) := by
      simp
    have hdrop : List.drop (r.data.length + 1) (r.data ++ Separator :: apisDir.data ++
        Separator :: (g.data ++ Separator :: v.data)) =
        apisDir.data ++ Separator :: (g.data ++ Separator :: v.data) := by
      rw [hsplit]
      exact List.drop_left' (by simp)
    simp only [String.data_append, hdrop]
    simp [Separator, String.singleton]

/-- C9 (code bug).  The claim fails on an input the program can receive: a
module root that itself holds the API directory.  With the module root
github.com/example/pkg/apis-operator, the API directory pkg/apis, the group
app and the version v1, the fully-qualified path is
github.com/example/pkg/apis-operator/pkg/apis/app/v1; `strings.Index` finds
the API directory inside the root, at offset 19 and not 37, so line 150
yields ./pkg/apis-operator/pkg/apis/app/v1 where the claim, and the comment
on line 149, ask for ./pkg/apis/app/v1.  The whole run of `OpenAPIGen`
succeeds and hands that directory to the generator as its input directory.
Under the module root github.com/example/app-operator the same lines yield
./pkg/apis/app/v1. -/
theorem relativeAPIPath_root_holding_ApisDir :
    CreateFQAPIs (Join ["github.com/example/pkg/apis-operator", "pkg/apis"])
        [("app", ["v1"])] =
      ["github.com/example/pkg/apis-operator/pkg/apis/app/v1"] ∧
    Join ["github.com/example/pkg/apis-operator", "pkg/apis", "app", "v1"] =
      "github.com/example/pkg/apis-operator/pkg/apis/app/v1" ∧
    stringsIndex "github.com/example/pkg/apis-operator/pkg/apis/app/v1" "pkg/apis" = 19 ∧
    relativeAPIPath "pkg/apis" "github.com/example/pkg/apis-operator/pkg/apis/app/v1" =
      some "./pkg/apis-operator/pkg/apis/app/v1" ∧
    relativeAPIPath "pkg/apis" "github.com/example/pkg/apis-operator/pkg/apis/app/v1" ≠
      some ("./" ++ "pkg/apis" ++ "/" ++ "app" ++ "/" ++ "v1") ∧
    (OpenAPIGen apisRootEnv).1 = .ok () ∧
    (generatorRuns (OpenAPIGen apisRootEnv).2).map (fun args => args.InputDirs) =
      [["./pkg/apis-operator/pkg/apis/app/v1"]] ∧
    (generatorRuns (OpenAPIGen apisRootEnv).2).map (fun args => args.OutputPackagePath) =
      ["/home/dev/app-operator/pkg/apis-operator/pkg/apis/app/v1"] ∧
    relativeAPIPath "pkg/apis"
      (Join ["github.com/example/app-operator", "pkg/apis", "app", "v1"]) =
      some "./pkg/apis/app/v1" :=
  ⟨by decide, by decide, by decide, by decide, by decide, by decide, by decide, by decide,
    by decide⟩

/-- C10. Group-excluding mode checks the version before, and independently
of, the group filter.  When the setup has delivered the CRD list and the
scaffolder succeeds on every request, then for every ignore list (the empty
one and one whose every entry is the CRD's group included): a CRD with an
empty primary version and an empty version list, all CRDs before it
resolving, makes `OpenAPIGenWithIgnoreFlag` return the "has no version"
error, although the group filter would scaffold that CRD zero times when
every entry of the list is its group; and `OpenAPIGenWithIgnoreFlag`
returns the same result as `OpenAPIGen`, hence the missing-version error on
exactly the same CRD lists. -/
theorem WithIgnoreFlag_checks_version_first (env : Env) (cfg : Config)
    (crds : List CustomResourceDefinition) (t0 : List Event) (ignoreGroups : List String)
    (hsetup : preScaffoldSetup env = (.ok (cfg, crds), t0))
    (hs : ScaffolderSucceeds env) :
    (∀ pre bad post, crds = pre ++ bad :: post → (∀ crd ∈ pre, Resolves crd) →
      bad.Spec.Version = "" → bad.Spec.Versions = [] →
      (OpenAPIGenWithIgnoreFlag env ignoreGroups).1 =
        .error (.errorf ("crd of group " ++ bad.Spec.Group ++ " kind " ++
          bad.Spec.Names.Kind ++ " has no version")) ∧
      ((∀ group ∈ ignoreGroups, group = bad.Spec.Group) →
        ignoreGroups.countP (fun group => decide (bad.Spec.Group ≠ group)) = 0 ∧
        ∀ v, (ignoreLoop env cfg bad.Spec.Group v bad.Spec.Names.Kind ignoreGroups) =
          (.ok (), []))) ∧
    (OpenAPIGenWithIgnoreFlag env ignoreGroups).1 = (OpenAPIGen env).1 ∧
    (∀ err, (OpenAPIGenWithIgnoreFlag env ignoreGroups).1 = .error err ↔
      (OpenAPIGen env).1 = .error err) := by
  have hrun := OpenAPIGen_of_setup env cfg crds t0 hsetup
  have hrun2 := WithIgnoreFlag_of_setup env cfg crds ignoreGroups t0 hsetup
  have hsame : (OpenAPIGenWithIgnoreFlag env ignoreGroups).1 = (OpenAPIGen env).1 := by
    rw [hrun, hrun2]
    exact WithIgnoreFlagLoop_outcome env hs cfg ignoreGroups crds
  refine ⟨?_, hsame, fun err => by rw [hsame]⟩
  intro pre bad post hsplit hpre hv hl
  have hbad : ¬ Resolves bad := (not_resolves_iff bad).mpr ⟨hv, hl⟩
  refine ⟨?_, ?_⟩
  · rw [hrun2, hsplit,
      WithIgnoreFlagLoop_first_bad env hs cfg ignoreGroups pre post bad hpre hbad]
    rfl
  · intro hall
    have hzero : ignoreGroups.countP (fun group => decide (bad.Spec.Group ≠ group)) = 0 := by
      rw [List.countP_eq_zero]
      intro group hmem
      simp [hall group hmem]
    refine ⟨hzero, fun v => ?_⟩
    rw [ignoreLoop_ok env hs, hzero]
    rfl

/-- Witness of C10: in the sample project a CRD of group cache without a
version fails the run in group-excluding mode with the ignore list cache,
and with the empty ignore list, exactly as in unconditional mode. -/
theorem WithIgnoreFlag_checks_version_first_witness :
    preScaffoldSetup (sampleEnv [("app", ["v1"])] [sampleCRD "cache" "" "Redis" []]) =
      (.ok (sampleConfig, [sampleCRD "cache" "" "Redis" []]),
        [.generate (sampleRun "app" "v1")]) ∧
    ScaffolderSucceeds (sampleEnv [("app", ["v1"])] [sampleCRD "cache" "" "Redis" []]) ∧
    (OpenAPIGenWithIgnoreFlag (sampleEnv [("app", ["v1"])] [sampleCRD "cache" "" "Redis" []])
      ["cache"]).1 = .error (.errorf "crd of group cache kind Redis has no version") ∧
    (OpenAPIGenWithIgnoreFlag (sampleEnv [("app", ["v1"])] [sampleCRD "cache" "" "Redis" []])
      []).1 = .error (.errorf "crd of group cache kind Redis has no version") ∧
    (OpenAPIGen (sampleEnv [("app", ["v1"])] [sampleCRD "cache" "" "Redis" []])).1 =
      .error (.errorf "crd of group cache kind Redis has no version") :=
  have h := fun L => WithIgnoreFlag_checks_version_first
    (sampleEnv [("app", ["v1"])] [sampleCRD "cache" "" "Redis" []]) sampleConfig
    [sampleCRD "cache" "" "Redis" []] [.generate (sampleRun "app" "v1")] L (by decide)
    (sampleEnv_succeeds _ _)
  have h1 := ((h ["cache"]).1 [] (sampleCRD "cache" "" "Redis" []) [] rfl (by decide)
    rfl rfl).1
  have h2 := ((h []).1 [] (sampleCRD "cache" "" "Redis" []) [] rfl (by decide) rfl rfl).1
  ⟨by decide, sampleEnv_succeeds _ _, h1.trans (by decide), h2.trans (by decide),
    ((h ["cache"]).2.1.symm.trans h1).trans (by decide)⟩

end Genutil
